import Mathlib

/-!
Shallow embedding of `src/mh_dist_polygon.py` (class `BhuNakshaExtractor`).

JSON values flowing through the program (parsed files, plot attribute
records, feature properties) are modelled by the inductive `JVal`.
Numeric leaves are modelled as integers; none of the verified claims
inspects a fractional numeric value.  Python semantics that the source
relies on (truthiness, `dict.get` / `dict.update`, `in`, iteration,
`str.replace` with a one-character pattern, `os.path.join`) are embedded
by small functions, each documented with the Python construct it mirrors.
-/

namespace MhPoly

/-- JSON value, the shape of everything `json.load` / `response.json()`
produces in the source. Numbers are modelled as integers. -/
inductive JVal where
  | jNull : JVal
  | jBool : Bool → JVal
  | jNum : Int → JVal
  | jStr : String → JVal
  | jArr : List JVal → JVal
  | jObj : List (String × JVal) → JVal
deriving Repr

mutual

/-- Structural equality on JSON values, modelling Python `==` on the
values produced by `json.load` (used by `set.add` / `in`).  Python
booleans are integers, so `True == 1` and `False == 0` hold across the
bool/int constructors. -/
def jvalBeq : JVal → JVal → Bool
  | .jNull, .jNull => true
  | .jBool a, .jBool b => a == b
  | .jBool a, .jNum b => (if a then (1 : Int) else 0) == b
  | .jNum a, .jBool b => a == (if b then (1 : Int) else 0)
  | .jNum a, .jNum b => a == b
  | .jStr a, .jStr b => a == b
  | .jArr xs, .jArr ys => jarrBeq xs ys
  | .jObj xs, .jObj ys => jobjBeq xs ys
  | _, _ => false

/-- Elementwise equality of JSON arrays. -/
def jarrBeq : List JVal → List JVal → Bool
  | [], [] => true
  | x :: xs, y :: ys => jvalBeq x y && jarrBeq xs ys
  | _, _ => false

/-- Pairwise equality of JSON object entry lists. -/
def jobjBeq : List (String × JVal) → List (String × JVal) → Bool
  | [], [] => true
  | (k, v) :: xs, (l, w) :: ys => k == l && jvalBeq v w && jobjBeq xs ys
  | _, _ => false

end

/-- Python truthiness (`bool(x)`) for JSON values: `None`, `False`, `0`,
empty string, empty list and empty dict are falsy. -/
def truthy : JVal → Bool
  | .jNull => false
  | .jBool b => b
  | .jNum n => n != 0
  | .jStr s => s != ""
  | .jArr xs => !xs.isEmpty
  | .jObj kvs => !kvs.isEmpty

/-- First binding of key `k` in a JSON object entry list (Python dicts
have unique keys, so first-match lookup agrees with dict lookup). -/
def jLookup : List (String × JVal) → String → Option JVal
  | [], _ => none
  | (l, v) :: rest, k => if l = k then some v else jLookup rest k

/-- Python exception classes that the embedded code can raise past the
handlers that appear in the source. -/
inductive PyErr where
  | attributeError : PyErr
  | typeError : PyErr
  | keyError : PyErr
deriving Repr, DecidableEq

/-- Python `v.get(k, dflt)`: a dict method, so any non-dict receiver
raises `AttributeError`. -/
def pyGet (v : JVal) (k : String) (dflt : JVal) : Except PyErr JVal :=
  match v with
  | .jObj kvs => .ok ((jLookup kvs k).getD dflt)
  | _ => .error .attributeError

/-- Python `needle in v` for a string needle: key membership on dicts,
element membership on lists, substring test on strings, `TypeError`
otherwise. -/
def pyIn (needle : String) (v : JVal) : Except PyErr Bool :=
  match v with
  | .jObj kvs => .ok (kvs.any (fun kv => kv.1 == needle))
  | .jArr xs => .ok (xs.any (jvalBeq (.jStr needle)))
  | .jStr s => .ok (decide (needle.data <:+: s.data))
  | _ => .error .typeError

/-- Python `v[k]` for a string key: dict lookup (`KeyError` when the key
is absent); lists and strings reject string indices with `TypeError`. -/
def pyIndexStr (v : JVal) (k : String) : Except PyErr JVal :=
  match v with
  | .jObj kvs =>
      match jLookup kvs k with
      | some x => .ok x
      | none => .error .keyError
  | _ => .error .typeError

/-- Python iteration `for x in v`: lists yield elements, dicts yield
keys, strings yield one-character strings, everything else raises
`TypeError`. -/
def pyIter (v : JVal) : Except PyErr (List JVal) :=
  match v with
  | .jArr xs => .ok xs
  | .jObj kvs => .ok (kvs.map (fun kv => .jStr kv.1))
  | .jStr s => .ok (s.data.map (fun c => .jStr (String.mk [c])))
  | _ => .error .typeError

/-- Membership in a Python `set` of JSON values (`x in s`). -/
def setMem (s : List JVal) (x : JVal) : Bool := s.any (jvalBeq x)

/-- Python `s.add(x)`: the list stays duplicate-free with respect to
`jvalBeq`; insertion order is kept for determinism (a Python set is
unordered, and only membership and cardinality are ever used). -/
def setAdd (s : List JVal) (x : JVal) : List JVal :=
  if setMem s x then s else s ++ [x]

/-- Python `base.update(upd)` for dicts: keys already in `base` keep
their position and take the value from `upd`; keys only in `upd` are
appended in `upd` order. -/
def pyDictUpdate (base upd : List (String × JVal)) : List (String × JVal) :=
  base.map (fun kv => (kv.1, (jLookup upd kv.1).getD kv.2)) ++
    upd.filter (fun kv => (jLookup base kv.1).isNone)

/-- Python `s.replace(c, r)` for a one-character pattern, which is a
per-character substitution (the source only replaces the single
characters space and slash). -/
def replaceChar (c r : Char) (s : String) : String :=
  String.mk (s.data.map (fun x => if x = c then r else x))

/-- Python `os.path.join(a, b)` on POSIX for two components: an absolute
second component wins, an empty or slash-terminated first component is
not given an extra separator. -/
def pyPathJoin (a b : String) : String :=
  if b.data.head? = some '/' then b
  else if a = "" then b
  else if a.data.getLast? = some '/' then a ++ b
  else a ++ "/" ++ b

/-- Falsiness of an optional string argument, as tested by the source's
`not all([...])` and `if not gis_code`: absent (`None`) or empty. -/
def optStrFalsy : Option String → Bool
  | none => true
  | some s => s == ""

/-- Embeds `BhuNakshaExtractor.get_village_gis_code` (src lines 64-68),
with the configured category passed explicitly as the first constituent:
`None` when any constituent is missing or empty, otherwise the
concatenation in the fixed order category, map type, district, taluk,
village. -/
def get_village_gis_code (category mapType district taluk village : Option String) :
    Option String :=
  if optStrFalsy category || optStrFalsy mapType || optStrFalsy district ||
      optStrFalsy taluk || optStrFalsy village then
    none
  else
    some ((category.getD "") ++ (mapType.getD "") ++ (district.getD "") ++
      (taluk.getD "") ++ (village.getD ""))

/-- The remote service as seen through the session methods of the class
(each method catches its own network errors internally and returns
`None` / `[]`, src lines 52-92): `get_village_info`, `get_plot_list`
(list of plot-number strings per the service contract), and
`get_plot_geometry`.  `wktToGeojson` is `wkt_to_geojson` (src lines
94-102): it catches every exception internally and returns the
reprojected GeoJSON mapping or `None`. -/
structure Env where
  villageInfo : String → Option JVal
  plotList : String → List String
  plotGeometry : String → String → Option JVal
  wktToGeojson : JVal → Option JVal

/-- File-system effects performed by `extract_and_save_village_data`:
`os.makedirs(..., exist_ok=True)`, a successful `json.dump` of `content`
to `path`, or a failed dump attempt (which the source catches; the
on-disk bytes it leaves behind are not modelled). -/
inductive FsEffect where
  | mkdirP : String → FsEffect
  | fileWrite : String → JVal → FsEffect
  | fileWriteFail : String → FsEffect
deriving Repr

/-- Outcome of one iteration of the per-plot loop (src lines 149-197). -/
inductive POutcome where
  | alreadyPresent : POutcome
  | fetchFailed : POutcome
  | noGeometry : POutcome
  | reprojectFailed : POutcome
  | persisted : POutcome
  | persistFailed : POutcome
deriving Repr, DecidableEq

/-- Mutable state of one `extract_and_save_village_data` call, plus the
observables of the run: file-system effects, the plots for which
`get_plot_geometry` was called, the successfully written file contents,
per-plot outcomes, and the exception that escaped the call, if any. -/
structure RunState where
  allFeatures : JVal
  existing : List JVal
  writeCount : Nat
  effects : List FsEffect
  fetched : List String
  writes : List JVal
  outcomes : List (String × POutcome)
  raised : Option PyErr
deriving Repr

/-- Values fixed for the whole per-plot loop of one village. -/
structure Ctx where
  env : Env
  gis : String
  districtName : String
  talukName : String
  villageName : String
  stateCode : String
  outputPath : String
  vinfo : JVal
  total : Nat
  writeFails : Nat → Bool

/-- Hashability of a JSON value as a Python set element: lists and
dicts are unhashable, so `set.add` raises `TypeError` on them. -/
def jvalHashable : JVal → Bool
  | .jArr _ => false
  | .jObj _ => false
  | _ => true

/-- The loop of src lines 120-123: collect `properties['plotno']` of
each loaded feature into the `existing_plot_nos` set, raising exactly
where the Python expressions raise on unexpected shapes — including the
`TypeError` that `set.add` raises on an unhashable (array or object)
plotno value. -/
def collectPlotNos : List JVal → List JVal → Except PyErr (List JVal)
  | [], acc => .ok acc
  | f :: rest, acc => do
      let props ← pyGet f "properties" (.jObj [])
      let has ← pyIn "plotno" props
      if has then do
        let pv ← pyIndexStr props "plotno"
        if jvalHashable pv then
          collectPlotNos rest (setAdd acc pv)
        else
          .error .typeError
      else
        collectPlotNos rest acc

/-- Src lines 110-128: initial features, village info and recovered plot
numbers.  `none` means the output file does not exist; `some none` means
it exists but reading or `json.load` failed with one of the caught
classes (`json.JSONDecodeError`, `IOError`) so the source warns and
starts fresh; `some (some data)` means it decoded to `data`, and the
subsequent attribute accesses raise uncaught exceptions on unexpected
shapes. -/
def loadExisting : Option (Option JVal) → Except PyErr (JVal × JVal × List JVal)
  | none => .ok (.jArr [], .jObj [], [])
  | some none => .ok (.jArr [], .jObj [], [])
  | some (some data) => do
      let feats ← pyGet data "features" (.jArr [])
      let meta ← pyGet data "metadata" (.jObj [])
      let vinfo ← pyGet meta "village_info" (.jObj [])
      let items ← pyIter feats
      let ex ← collectPlotNos items []
      .ok (feats, vinfo, ex)

/-- Src lines 160-166: the context dict followed by
`properties.update(plot_data)`. -/
def mkProperties (district taluk village : String)
    (plotData : List (String × JVal)) : List (String × JVal) :=
  pyDictUpdate
    [("district", .jStr district), ("taluk", .jStr taluk), ("village", .jStr village)]
    plotData

/-- Src lines 174-188: the `geojson_output` dict built before every dump,
with `iPlus1` the 1-based position of the current plot in the full plot
list (`i + 1` in the source). -/
def mkOutput (ctx : Ctx) (iPlus1 : Nat) (feats : List JVal) : JVal :=
  .jObj [("type", .jStr "FeatureCollection"),
    ("metadata", .jObj [
      ("district", .jStr ctx.districtName),
      ("taluk", .jStr ctx.talukName),
      ("village", .jStr ctx.villageName),
      ("village_info", ctx.vinfo),
      ("total_plots", .jNum ctx.total),
      ("successful_plots", .jNum feats.length),
      ("failed_plots", .jNum ((iPlus1 : Int) - (feats.length : Int))),
      ("gis_code", .jStr ctx.gis),
      ("state", .jStr ctx.stateCode)]),
    ("features", .jArr feats)]

/-- Result of examining one plot number in the loop body, before any
mutation of the feature list or of the disk: skipped because already
present, skipped after a failure, a reprojected feature ready to append,
or an uncaught Python exception. -/
inductive StepRes where
  | skip : StepRes
  | fail : POutcome → StepRes
  | success : JVal → StepRes
  | raise : PyErr → StepRes
deriving Repr

/-- Src lines 150-172 up to the `all_features.append`: the resume check
`plot_no in existing_plot_nos`, the fetch `get_plot_geometry`, the
`plot_data and plot_data.get('the_geom')` guard (`.get` on a truthy
non-dict raises `AttributeError`), the reprojection, the `if geometry:`
guard, and the construction of the feature with merged properties. -/
def classifyPlot (env : Env) (gis district taluk village : String) (p : String)
    (existing : List JVal) : StepRes :=
  if setMem existing (.jStr p) then .skip
  else
    match env.plotGeometry gis p with
    | none => .fail .fetchFailed
    | some pd =>
        if truthy pd then
          match pd with
          | .jObj kvs =>
              let geomWkt := (jLookup kvs "the_geom").getD .jNull
              if truthy geomWkt then
                match env.wktToGeojson geomWkt with
                | some geometry =>
                    if truthy geometry then
                      .success (.jObj [("type", .jStr "Feature"),
                        ("geometry", geometry),
                        ("properties", .jObj (mkProperties district taluk village kvs))])
                    else .fail .reprojectFailed
                | none => .fail .reprojectFailed
              else .fail .noGeometry
          | _ => .raise .attributeError
        else .fail .fetchFailed

/-- One iteration of the per-plot loop (src lines 149-197) at 0-based
position `i` of the full plot list: on success the feature is appended
(`all_features.append` raises `AttributeError` on a non-list), the whole
`geojson_output` is dumped, and only a successful dump adds the plot
number to `existing_plot_nos`. -/
def stepPlot (ctx : Ctx) (i : Nat) (p : String) (st : RunState) : RunState :=
  match classifyPlot ctx.env ctx.gis ctx.districtName ctx.talukName ctx.villageName
      p st.existing with
  | .skip => { st with outcomes := st.outcomes ++ [(p, .alreadyPresent)] }
  | .fail o =>
      { st with fetched := st.fetched ++ [p], outcomes := st.outcomes ++ [(p, o)] }
  | .raise e => { st with fetched := st.fetched ++ [p], raised := some e }
  | .success feature =>
      match st.allFeatures with
      | .jArr fs =>
          let fs' := fs ++ [feature]
          let content := mkOutput ctx (i + 1) fs'
          if ctx.writeFails st.writeCount then
            { st with
                allFeatures := .jArr fs',
                writeCount := st.writeCount + 1,
                fetched := st.fetched ++ [p],
                effects := st.effects ++ [.fileWriteFail ctx.outputPath],
                outcomes := st.outcomes ++ [(p, .persistFailed)] }
          else
            { st with
                allFeatures := .jArr fs',
                writeCount := st.writeCount + 1,
                fetched := st.fetched ++ [p],
                effects := st.effects ++ [.fileWrite ctx.outputPath content],
                writes := st.writes ++ [content],
                existing := setAdd st.existing (.jStr p),
                outcomes := st.outcomes ++ [(p, .persisted)] }
      | _ => { st with fetched := st.fetched ++ [p], raised := some .attributeError }

/-- The per-plot loop `for i, plot_no in enumerate(plot_list)` (src
lines 149-197); an uncaught exception in the body unwinds out of the
loop. -/
def processPlots (ctx : Ctx) : Nat → List String → RunState → RunState
  | _, [], st => st
  | i, p :: rest, st =>
      let st' := stepPlot ctx i p st
      if st'.raised.isSome then st' else processPlots ctx (i + 1) rest st'

/-- Arguments of one `extract_and_save_village_data` call, together with
the modelled environment: what the remote service answers, what is on
disk at the village's output path, and which dump attempts fail. -/
structure ExtractInput where
  gisCode : Option String
  districtName : String
  talukName : String
  villageName : String
  outputDir : String
  stateCode : String
  existingFile : Option (Option JVal)
  env : Env
  writeFails : Nat → Bool

/-- Src line 106: `os.path.join(output_dir, taluk_name.replace(' ', '_'))`. -/
def talukDirOf (inp : ExtractInput) : String :=
  pyPathJoin inp.outputDir (replaceChar ' ' '_' inp.talukName)

/-- Src line 108: the per-village output path; only the village name has
both spaces and slashes replaced. -/
def outputPathOf (inp : ExtractInput) : String :=
  pyPathJoin (talukDirOf inp)
    ((replaceChar '/' '_' (replaceChar ' ' '_' inp.villageName)) ++ ".geojson")

/-- State of the call right after the taluk directory was made and prior
progress was loaded (src lines 106-128): `feats` is `all_features`, `ex`
is `existing_plot_nos`. -/
def st1Of (inp : ExtractInput) (feats : JVal) (ex : List JVal) : RunState :=
  { allFeatures := feats, existing := ex, writeCount := 0,
    effects := [.mkdirP (talukDirOf inp)], fetched := [], writes := [],
    outcomes := [], raised := none }

/-- Src lines 134-135: keep the recovered village info when truthy,
otherwise fetch it fresh (`None` on failure, written as JSON null). -/
def vinfoOf (inp : ExtractInput) (vinfo0 : JVal) : JVal :=
  if truthy vinfo0 then vinfo0
  else (inp.env.villageInfo (inp.gisCode.getD "")).getD .jNull

/-- The loop-constant context of a village whose gis code passed the
falsiness check (so `inp.gisCode.getD ""` is the gis code itself). -/
def ctxOf (inp : ExtractInput) (vinfo0 : JVal) : Ctx :=
  { env := inp.env, gis := inp.gisCode.getD "", districtName := inp.districtName,
    talukName := inp.talukName, villageName := inp.villageName,
    stateCode := inp.stateCode, outputPath := outputPathOf inp,
    vinfo := vinfoOf inp vinfo0,
    total := (inp.env.plotList (inp.gisCode.getD "")).length,
    writeFails := inp.writeFails }

/-- Embeds `extract_and_save_village_data` (src lines 104-199): make the
taluk directory, load prior progress, bail out on a falsy gis code,
fetch village info when none was recovered, fetch the plot list, bail
out when it is empty, skip the village when the recovered plot-number
count equals the plot-list length, otherwise run the per-plot loop. -/
def extract (inp : ExtractInput) : RunState :=
  match loadExisting inp.existingFile with
  | .error e => { st1Of inp (.jArr []) [] with raised := some e }
  | .ok (feats, vinfo0, ex) =>
      if optStrFalsy inp.gisCode then st1Of inp feats ex
      else
        let plotList := inp.env.plotList (inp.gisCode.getD "")
        if plotList.isEmpty then st1Of inp feats ex
        else if ex.length = plotList.length then st1Of inp feats ex
        else processPlots (ctxOf inp vinfo0) 0 plotList (st1Of inp feats ex)

/-- Reader for a persisted `VillageOutput` value: its `features` array
(empty for shapes the file format never produces). -/
def featListOf (c : JVal) : List JVal :=
  match c with
  | .jObj kvs =>
      match jLookup kvs "features" with
      | some (.jArr fs) => fs
      | _ => []
  | _ => []

/-- Reader for one persisted feature: its `properties.plotno` value, if
any. -/
def featPlotNo (f : JVal) : Option JVal :=
  match f with
  | .jObj kvs =>
      match jLookup kvs "properties" with
      | some (.jObj ps) => jLookup ps "plotno"
      | _ => none
  | _ => none

/-- Plot numbers recorded in a list of persisted features. -/
def plotNosOfFeats (fs : List JVal) : List JVal :=
  fs.filterMap featPlotNo

/-- Reader for a persisted `VillageOutput` value: a `metadata` entry. -/
def metaOf (c : JVal) (k : String) : Option JVal :=
  match c with
  | .jObj kvs =>
      match jLookup kvs "metadata" with
      | some (.jObj ms) => jLookup ms k
      | _ => none
  | _ => none

/-- The feature that one plot yields when processed fresh (not in the
resume set), or `none` when the fetch, the geometry guard or the
reprojection fails for it.  Determined by the environment alone. -/
def plotFeatureOf (env : Env) (gis district taluk village p : String) : Option JVal :=
  match classifyPlot env gis district taluk village p [] with
  | .success f => some f
  | _ => none

/-- Well-formed environment: every `get_plot_geometry` answer is either
falsy (skipped by the `plot_data and ...` guard) or a JSON object, so
the `plot_data.get('the_geom')` attribute access cannot raise.  The real
service returns JSON objects from `getPlotInfo`. -/
def EnvWF (env : Env) : Prop :=
  ∀ gis p pd, env.plotGeometry gis p = some pd →
    truthy pd = false ∨ ∃ kvs, pd = JVal.jObj kvs

theorem jvalBeq_jStr (a b : String) : jvalBeq (.jStr a) (.jStr b) = (a == b) := rfl

theorem setMem_append (s t : List JVal) (x : JVal) :
    setMem (s ++ t) x = (setMem s x || setMem t x) := by
  simp [setMem, List.any_append]

theorem setMem_setAdd_of_mem (s : List JVal) (x y : JVal) (h : setMem s x = true) :
    setMem (setAdd s y) x = true := by
  unfold setAdd
  split
  · exact h
  · simp [setMem_append, h]

theorem setAdd_of_not_mem (s : List JVal) (x : JVal) (h : setMem s x = false) :
    setAdd s x = s ++ [x] := by
  simp [setAdd, h]

theorem setMem_setAdd_jStr_of_ne (s : List JVal) (p q : String) (h : p ≠ q) :
    setMem (setAdd s (.jStr p)) (.jStr q) = setMem s (.jStr q) := by
  unfold setAdd
  split
  · rfl
  · simp only [setMem_append]
    have : setMem [JVal.jStr p] (.jStr q) = false := by
      simp [setMem, jvalBeq_jStr, beq_iff_eq]
      intro hqp
      exact h hqp.symm
    simp [this]

theorem setMem_map_jStr (E : List String) (q : String) :
    setMem (E.map JVal.jStr) (.jStr q) = E.contains q := by
  induction E with
  | nil => rfl
  | cons e rest ih =>
      simp only [List.map_cons, setMem, List.any_cons, jvalBeq_jStr, List.contains_cons]
      rw [show (rest.map JVal.jStr).any (jvalBeq (.jStr q))
            = setMem (rest.map JVal.jStr) (.jStr q) from rfl, ih]

theorem classify_of_not_skip (env : Env) (gis d t v p : String) (ex : List JVal)
    (hq : setMem ex (.jStr p) = false) :
    classifyPlot env gis d t v p ex
      = (match env.plotGeometry gis p with
        | none => StepRes.fail .fetchFailed
        | some pd =>
            if truthy pd then
              match pd with
              | .jObj kvs =>
                  let geomWkt := (jLookup kvs "the_geom").getD .jNull
                  if truthy geomWkt then
                    match env.wktToGeojson geomWkt with
                    | some geometry =>
                        if truthy geometry then
                          .success (.jObj [("type", .jStr "Feature"),
                            ("geometry", geometry),
                            ("properties", .jObj (mkProperties d t v kvs))])
                        else .fail .reprojectFailed
                    | none => .fail .reprojectFailed
                  else .fail .noGeometry
              | _ => .raise .attributeError
            else .fail .fetchFailed) := by
  unfold classifyPlot
  rw [hq]
  rfl

theorem classify_no_raise (env : Env) (hwf : EnvWF env)
    (gis d t v p : String) (ex : List JVal) (e : PyErr) :
    classifyPlot env gis d t v p ex ≠ .raise e := by
  intro h
  rcases hm : setMem ex (.jStr p) with _ | _
  · rw [classify_of_not_skip env gis d t v p ex hm] at h
    cases hpg : env.plotGeometry gis p with
    | none => simp only [hpg] at h; cases h
    | some pd =>
        simp only [hpg] at h
        rcases hwf gis p pd hpg with hfal | ⟨kvs, rfl⟩
        · simp only [hfal, Bool.false_eq_true, if_false] at h
          cases h
        · by_cases ht : truthy (JVal.jObj kvs) = true
          · simp only [ht, if_true] at h
            by_cases hg : truthy ((jLookup kvs "the_geom").getD .jNull) = true
            · simp only [hg, if_true] at h
              cases hw : env.wktToGeojson ((jLookup kvs "the_geom").getD .jNull) with
              | none => simp only [hw] at h; cases h
              | some g =>
                  simp only [hw] at h
                  by_cases htg : truthy g = true
                  · simp only [htg, if_true] at h; cases h
                  · simp only [Bool.not_eq_true] at htg
                    simp only [htg, Bool.false_eq_true, if_false] at h; cases h
            · simp only [Bool.not_eq_true] at hg
              simp only [hg, Bool.false_eq_true, if_false] at h; cases h
          · simp only [Bool.not_eq_true] at ht
            simp only [ht, Bool.false_eq_true, if_false] at h; cases h
  · unfold classifyPlot at h
    rw [hm] at h
    simp only [if_true] at h
    cases h

theorem classify_existing_irrel (env : Env) (gis d t v p : String) (ex : List JVal)
    (h : setMem ex (.jStr p) = false) :
    classifyPlot env gis d t v p ex = classifyPlot env gis d t v p [] := by
  rw [classify_of_not_skip env gis d t v p ex h,
    classify_of_not_skip env gis d t v p [] rfl]

theorem classify_skip_iff (env : Env) (gis d t v p : String) (ex : List JVal) :
    classifyPlot env gis d t v p ex = .skip ↔ setMem ex (.jStr p) = true := by
  constructor
  · intro h
    by_contra hq
    rw [Bool.not_eq_true] at hq
    rw [classify_of_not_skip env gis d t v p ex hq] at h
    cases hpg : env.plotGeometry gis p with
    | none => simp only [hpg] at h; cases h
    | some pd =>
        simp only [hpg] at h
        by_cases ht : truthy pd = true
        · simp only [ht, if_true] at h
          cases pd with
          | jObj kvs =>
              by_cases hg : truthy ((jLookup kvs "the_geom").getD .jNull) = true
              · simp only [hg, if_true] at h
                cases hw : env.wktToGeojson ((jLookup kvs "the_geom").getD .jNull) with
                | none => simp only [hw] at h; cases h
                | some g =>
                    simp only [hw] at h
                    by_cases htg : truthy g = true
                    · simp only [htg, if_true] at h; cases h
                    · simp only [Bool.not_eq_true] at htg
                      simp only [htg, Bool.false_eq_true, if_false] at h; cases h
              · simp only [Bool.not_eq_true] at hg
                simp only [hg, Bool.false_eq_true, if_false] at h; cases h
          | jNull => cases h
          | jBool b => cases h
          | jNum n => cases h
          | jStr s => cases h
          | jArr xs => cases h
        · simp only [Bool.not_eq_true] at ht
          simp only [ht, Bool.false_eq_true, if_false] at h
          cases h
  · intro h
    unfold classifyPlot
    rw [h]
    rfl

theorem classify_not_skip_not_mem (env : Env) (gis d t v p : String) (ex : List JVal)
    (h : classifyPlot env gis d t v p ex ≠ .skip) :
    setMem ex (.jStr p) = false := by
  by_contra hx
  rw [Bool.not_eq_false] at hx
  exact h ((classify_skip_iff env gis d t v p ex).mpr hx)

theorem classify_success_plotFeature (env : Env) (gis d t v p : String)
    (ex : List JVal) (f : JVal) (hmem : setMem ex (.jStr p) = false)
    (h : classifyPlot env gis d t v p ex = .success f) :
    plotFeatureOf env gis d t v p = some f := by
  unfold plotFeatureOf
  rw [← classify_existing_irrel env gis d t v p ex hmem, h]

theorem classify_fail_plotFeature (env : Env) (gis d t v p : String)
    (ex : List JVal) (o : POutcome) (hmem : setMem ex (.jStr p) = false)
    (h : classifyPlot env gis d t v p ex = .fail o) :
    plotFeatureOf env gis d t v p = none := by
  unfold plotFeatureOf
  rw [← classify_existing_irrel env gis d t v p ex hmem, h]

theorem featListOf_mkOutput (ctx : Ctx) (k : Nat) (fs : List JVal) :
    featListOf (mkOutput ctx k fs) = fs := by
  simp [featListOf, mkOutput, jLookup]

theorem metaOf_mkOutput_successful (ctx : Ctx) (k : Nat) (fs : List JVal) :
    metaOf (mkOutput ctx k fs) "successful_plots" = some (.jNum (fs.length : Int)) := by
  simp [metaOf, mkOutput, jLookup]

theorem metaOf_mkOutput_failed (ctx : Ctx) (k : Nat) (fs : List JVal) :
    metaOf (mkOutput ctx k fs) "failed_plots"
      = some (.jNum ((k : Int) - (fs.length : Int))) := by
  simp [metaOf, mkOutput, jLookup]

/-- Relation between two persisted file contents: the features of the
first are an initial segment of the features of the second (features are
only ever appended). -/
def featsExtend (a b : JVal) : Prop := featListOf a <+: featListOf b

theorem processPlots_nil (ctx : Ctx) (i : Nat) (st : RunState) :
    processPlots ctx i [] st = st := rfl

theorem processPlots_cons (ctx : Ctx) (i : Nat) (p : String) (rest : List String)
    (st : RunState) :
    processPlots ctx i (p :: rest) st =
      if (stepPlot ctx i p st).raised.isSome then stepPlot ctx i p st
      else processPlots ctx (i + 1) rest (stepPlot ctx i p st) := rfl

theorem stepPlot_skip (ctx : Ctx) (i : Nat) (p : String) (st : RunState)
    (hc : classifyPlot ctx.env ctx.gis ctx.districtName ctx.talukName ctx.villageName
      p st.existing = .skip) :
    stepPlot ctx i p st = { st with outcomes := st.outcomes ++ [(p, .alreadyPresent)] } := by
  unfold stepPlot
  rw [hc]

theorem stepPlot_fail (ctx : Ctx) (i : Nat) (p : String) (st : RunState) (o : POutcome)
    (hc : classifyPlot ctx.env ctx.gis ctx.districtName ctx.talukName ctx.villageName
      p st.existing = .fail o) :
    stepPlot ctx i p st
      = { st with fetched := st.fetched ++ [p], outcomes := st.outcomes ++ [(p, o)] } := by
  unfold stepPlot
  rw [hc]

theorem stepPlot_success_wfail (ctx : Ctx) (i : Nat) (p : String) (st : RunState)
    (f : JVal) (fs : List JVal)
    (hc : classifyPlot ctx.env ctx.gis ctx.districtName ctx.talukName ctx.villageName
      p st.existing = .success f)
    (hf : st.allFeatures = .jArr fs)
    (hwl : ctx.writeFails st.writeCount = true) :
    stepPlot ctx i p st
      = { st with allFeatures := .jArr (fs ++ [f]), writeCount := st.writeCount + 1, fetched := st.fetched ++ [p], effects := st.effects ++ [.fileWriteFail ctx.outputPath], outcomes := st.outcomes ++ [(p, .persistFailed)] } := by
  unfold stepPlot
  rw [hc, hf, hwl]
  simp

theorem stepPlot_success_wok (ctx : Ctx) (i : Nat) (p : String) (st : RunState)
    (f : JVal) (fs : List JVal)
    (hc : classifyPlot ctx.env ctx.gis ctx.districtName ctx.talukName ctx.villageName
      p st.existing = .success f)
    (hf : st.allFeatures = .jArr fs)
    (hwl : ctx.writeFails st.writeCount = false) :
    stepPlot ctx i p st
      = { st with allFeatures := .jArr (fs ++ [f]), writeCount := st.writeCount + 1, fetched := st.fetched ++ [p], effects := st.effects ++ [.fileWrite ctx.outputPath (mkOutput ctx (i + 1) (fs ++ [f]))], writes := st.writes ++ [mkOutput ctx (i + 1) (fs ++ [f])], existing := setAdd st.existing (.jStr p), outcomes := st.outcomes ++ [(p, .persisted)] } := by
  unfold stepPlot
  rw [hc, hf, hwl]
  simp

theorem processPlots_cons_ok (ctx : Ctx) (i : Nat) (p : String) (rest : List String)
    (st : RunState) (h : (stepPlot ctx i p st).raised = none) :
    processPlots ctx i (p :: rest) st = processPlots ctx (i + 1) rest (stepPlot ctx i p st) := by
  rw [processPlots_cons, h]
  rfl

/-- Core invariant of the per-plot loop: it never raises when the remote
plot records are well formed and the feature list is a list; features
are only appended; successfully written contents are `geojson_output`
snapshots at positions within the processed segment; every effect is a
dump (successful or failed) to the village's output path; the features
of every written snapshot extend the feature list the loop started
from. -/
theorem processPlots_main (ctx : Ctx) (hwf : EnvWF ctx.env) :
    ∀ (ps : List String) (i : Nat) (st : RunState) (fs : List JVal),
      st.raised = none → st.allFeatures = .jArr fs →
      List.Chain' featsExtend st.writes →
      (∀ c ∈ st.writes, featListOf c <+: fs) →
      (processPlots ctx i ps st).raised = none ∧
      ∃ nf, (processPlots ctx i ps st).allFeatures = .jArr (fs ++ nf) ∧
        List.Chain' featsExtend (processPlots ctx i ps st).writes ∧
        (∀ c ∈ (processPlots ctx i ps st).writes, featListOf c <+: fs ++ nf) ∧
        (∃ dw, (processPlots ctx i ps st).writes = st.writes ++ dw ∧
          ∀ c ∈ dw, (∃ k p fsc, i ≤ k ∧ k < i + ps.length ∧ ps[k - i]? = some p ∧
              c = mkOutput ctx (k + 1) fsc ∧
              fsc.getLast? = plotFeatureOf ctx.env ctx.gis ctx.districtName
                ctx.talukName ctx.villageName p)
            ∧ fs <+: featListOf c) ∧
        (∃ de, (processPlots ctx i ps st).effects = st.effects ++ de ∧
          ∀ e ∈ de, e = .fileWriteFail ctx.outputPath ∨
            ∃ c, e = .fileWrite ctx.outputPath c) := by
  intro ps
  induction ps with
  | nil =>
      intro i st fs hr hf hch hpref
      rw [processPlots_nil]
      refine ⟨hr, [], by simpa using hf, hch, by simpa using hpref,
        ⟨[], by simp, by simp⟩, ⟨[], by simp, by simp⟩⟩
  | cons p rest ih =>
      intro i st fs hr hf hch hpref
      rcases hc : classifyPlot ctx.env ctx.gis ctx.districtName ctx.talukName
          ctx.villageName p st.existing with _ | o | f | e
      · -- already present: skipped without fetching
        have hstep := stepPlot_skip ctx i p st hc
        have hra : (stepPlot ctx i p st).raised = none := by rw [hstep]; exact hr
        rw [processPlots_cons_ok ctx i p rest st hra, hstep]
        obtain ⟨h1, nf, h2, h3, h4, ⟨dw, hdw, hdwc⟩, ⟨de, hde, hdec⟩⟩ :=
          ih (i + 1) { st with outcomes := st.outcomes ++ [(p, .alreadyPresent)] }
            fs hr hf hch hpref
        refine ⟨h1, nf, h2, h3, h4, ⟨dw, hdw, ?_⟩, ⟨de, hde, hdec⟩⟩
        intro c hcm
        obtain ⟨⟨k, p2, fsc, hk1, hk2, hkg, hke, hkl⟩, hp2⟩ := hdwc c hcm
        refine ⟨⟨k, p2, fsc, by omega, ?_, ?_, hke, hkl⟩, hp2⟩
        · simp only [List.length_cons]
          omega
        · have hki : k - i = (k - (i + 1)) + 1 := by omega
          rw [hki, List.getElem?_cons_succ]
          exact hkg
      · -- fetched but failed: no data, no geometry, or reprojection failed
        have hstep := stepPlot_fail ctx i p st o hc
        have hra : (stepPlot ctx i p st).raised = none := by rw [hstep]; exact hr
        rw [processPlots_cons_ok ctx i p rest st hra, hstep]
        obtain ⟨h1, nf, h2, h3, h4, ⟨dw, hdw, hdwc⟩, ⟨de, hde, hdec⟩⟩ :=
          ih (i + 1)
            { st with fetched := st.fetched ++ [p], outcomes := st.outcomes ++ [(p, o)] }
            fs hr hf hch hpref
        refine ⟨h1, nf, h2, h3, h4, ⟨dw, hdw, ?_⟩, ⟨de, hde, hdec⟩⟩
        intro c hcm
        obtain ⟨⟨k, p2, fsc, hk1, hk2, hkg, hke, hkl⟩, hp2⟩ := hdwc c hcm
        refine ⟨⟨k, p2, fsc, by omega, ?_, ?_, hke, hkl⟩, hp2⟩
        · simp only [List.length_cons]
          omega
        · have hki : k - i = (k - (i + 1)) + 1 := by omega
          rw [hki, List.getElem?_cons_succ]
          exact hkg
      · -- success: append the feature and attempt the dump
        have hnm : setMem st.existing (.jStr p) = false :=
          classify_not_skip_not_mem ctx.env ctx.gis ctx.districtName ctx.talukName
            ctx.villageName p st.existing (by rw [hc]; intro hx; cases hx)
        have hpf : plotFeatureOf ctx.env ctx.gis ctx.districtName ctx.talukName
            ctx.villageName p = some f :=
          classify_success_plotFeature ctx.env ctx.gis ctx.districtName ctx.talukName
            ctx.villageName p st.existing f hnm hc
        cases hwl : ctx.writeFails st.writeCount with
        | true =>
            have hstep := stepPlot_success_wfail ctx i p st f fs hc hf hwl
            have hra : (stepPlot ctx i p st).raised = none := by rw [hstep]; exact hr
            rw [processPlots_cons_ok ctx i p rest st hra, hstep]
            obtain ⟨h1, nf, h2, h3, h4, ⟨dw, hdw, hdwc⟩, ⟨de, hde, hdec⟩⟩ :=
              ih (i + 1)
                { st with allFeatures := .jArr (fs ++ [f]), writeCount := st.writeCount + 1, fetched := st.fetched ++ [p], effects := st.effects ++ [.fileWriteFail ctx.outputPath], outcomes := st.outcomes ++ [(p, .persistFailed)] }
                (fs ++ [f]) hr rfl hch
                (fun c hcm => (hpref c hcm).trans (List.prefix_append fs [f]))
            refine ⟨h1, f :: nf, by simpa using h2, h3, ?_, ⟨dw, hdw, ?_⟩,
              ⟨.fileWriteFail ctx.outputPath :: de, by simpa using hde, ?_⟩⟩
            · intro c hcm
              have := h4 c hcm
              simpa using this
            · intro c hcm
              obtain ⟨⟨k, p2, fsc, hk1, hk2, hkg, hke, hkl⟩, hp2⟩ := hdwc c hcm
              refine ⟨⟨k, p2, fsc, by omega, ?_, ?_, hke, hkl⟩,
                (List.prefix_append fs [f]).trans hp2⟩
              · simp only [List.length_cons]
                omega
              · have hki : k - i = (k - (i + 1)) + 1 := by omega
                rw [hki, List.getElem?_cons_succ]
                exact hkg
            · intro e hem
              rcases List.mem_cons.mp hem with rfl | hem
              · exact Or.inl rfl
              · exact hdec e hem
        | false =>
            have hstep := stepPlot_success_wok ctx i p st f fs hc hf hwl
            have hra : (stepPlot ctx i p st).raised = none := by rw [hstep]; exact hr
            rw [processPlots_cons_ok ctx i p rest st hra, hstep]
            have hlink : ∀ c ∈ st.writes ++ [mkOutput ctx (i + 1) (fs ++ [f])],
                featListOf c <+: fs ++ [f] := by
              intro c hcm
              rcases List.mem_append.mp hcm with hcm | hcm
              · exact (hpref c hcm).trans (List.prefix_append fs [f])
              · have hce : c = mkOutput ctx (i + 1) (fs ++ [f]) := by simpa using hcm
                rw [hce, featListOf_mkOutput]
            have hch' : List.Chain' featsExtend
                (st.writes ++ [mkOutput ctx (i + 1) (fs ++ [f])]) := by
              rw [List.chain'_append]
              refine ⟨hch, List.chain'_singleton _, ?_⟩
              intro x hx y hy
              have hxm : x ∈ st.writes := List.mem_of_mem_getLast? hx
              have hye : y = mkOutput ctx (i + 1) (fs ++ [f]) := by
                have := hy
                simp only [List.head?_cons, Option.mem_def, Option.some.injEq] at this
                exact this.symm
              rw [hye]
              unfold featsExtend
              rw [featListOf_mkOutput]
              exact (hpref x hxm).trans (List.prefix_append fs [f])
            obtain ⟨h1, nf, h2, h3, h4, ⟨dw, hdw, hdwc⟩, ⟨de, hde, hdec⟩⟩ :=
              ih (i + 1)
                { st with allFeatures := .jArr (fs ++ [f]), writeCount := st.writeCount + 1, fetched := st.fetched ++ [p], effects := st.effects ++ [.fileWrite ctx.outputPath (mkOutput ctx (i + 1) (fs ++ [f]))], writes := st.writes ++ [mkOutput ctx (i + 1) (fs ++ [f])], existing := setAdd st.existing (.jStr p), outcomes := st.outcomes ++ [(p, .persisted)] }
                (fs ++ [f]) hr rfl hch' hlink
            refine ⟨h1, f :: nf, by simpa using h2, h3, ?_,
              ⟨mkOutput ctx (i + 1) (fs ++ [f]) :: dw, by simpa using hdw, ?_⟩,
              ⟨.fileWrite ctx.outputPath (mkOutput ctx (i + 1) (fs ++ [f])) :: de, by simpa using hde, ?_⟩⟩
            · intro c hcm
              have := h4 c hcm
              simpa using this
            · intro c hcm
              rcases List.mem_cons.mp hcm with rfl | hcm
              · refine ⟨⟨i, p, fs ++ [f], le_refl i, ?_, ?_, rfl, ?_⟩, ?_⟩
                · simp only [List.length_cons]
                  omega
                · simp
                · rw [List.getLast?_concat]
                  exact hpf.symm
                · rw [featListOf_mkOutput]
                  exact List.prefix_append fs [f]
              · obtain ⟨⟨k, p2, fsc, hk1, hk2, hkg, hke, hkl⟩, hp2⟩ := hdwc c hcm
                refine ⟨⟨k, p2, fsc, by omega, ?_, ?_, hke, hkl⟩,
                  (List.prefix_append fs [f]).trans hp2⟩
                · simp only [List.length_cons]
                  omega
                · have hki : k - i = (k - (i + 1)) + 1 := by omega
                  rw [hki, List.getElem?_cons_succ]
                  exact hkg
            · intro e hem
              rcases List.mem_cons.mp hem with rfl | hem
              · exact Or.inr ⟨_, rfl⟩
              · exact hdec e hem
      · exact absurd hc (classify_no_raise ctx.env hwf ctx.gis ctx.districtName
          ctx.talukName ctx.villageName p st.existing e)

theorem classify_fail_elim (env : Env) (gis d t v p : String) (ex : List JVal)
    (o : POutcome)
    (h : classifyPlot env gis d t v p ex = .fail o) :
    o = .fetchFailed ∨ o = .noGeometry ∨ o = .reprojectFailed := by
  rcases hm : setMem ex (.jStr p) with _ | _
  · rw [classify_of_not_skip env gis d t v p ex hm] at h
    cases hpg : env.plotGeometry gis p with
    | none =>
        simp only [hpg] at h
        cases h
        exact Or.inl rfl
    | some pd =>
        simp only [hpg] at h
        by_cases ht : truthy pd = true
        · simp only [ht, if_true] at h
          cases pd with
          | jObj kvs =>
              by_cases hg : truthy ((jLookup kvs "the_geom").getD .jNull) = true
              · simp only [hg, if_true] at h
                cases hw : env.wktToGeojson ((jLookup kvs "the_geom").getD .jNull) with
                | none =>
                    simp only [hw] at h
                    cases h
                    exact Or.inr (Or.inr rfl)
                | some g =>
                    simp only [hw] at h
                    by_cases htg : truthy g = true
                    · simp only [htg, if_true] at h; cases h
                    · simp only [Bool.not_eq_true] at htg
                      simp only [htg, Bool.false_eq_true, if_false] at h
                      cases h
                      exact Or.inr (Or.inr rfl)
              · simp only [Bool.not_eq_true] at hg
                simp only [hg, Bool.false_eq_true, if_false] at h
                cases h
                exact Or.inr (Or.inl rfl)
          | jNull => cases h
          | jBool b => cases h
          | jNum n => cases h
          | jStr s => cases h
          | jArr xs => cases h
        · simp only [Bool.not_eq_true] at ht
          simp only [ht, Bool.false_eq_true, if_false] at h
          cases h
          exact Or.inl rfl
  · unfold classifyPlot at h
    rw [hm] at h
    simp only [if_true] at h
    cases h

/-- Per-plot loop, resume bookkeeping: the fetched plots are exactly the
plots of the processed segment whose numbers are not in the recovered
set (in segment order); the appended features are exactly the features
those fresh plots yield; each processed plot gets exactly one outcome;
a plot that was actually processed was not in the set the loop started
with; and the set grows exactly by the plot numbers that were
successfully persisted. -/
theorem processPlots_fetch (ctx : Ctx) (hwf : EnvWF ctx.env) :
    ∀ (ps : List String) (i : Nat) (st : RunState) (fs : List JVal) (E : String → Bool),
      st.raised = none → st.allFeatures = .jArr fs → ps.Nodup →
      (∀ q ∈ ps, setMem st.existing (.jStr q) = E q) →
      (processPlots ctx i ps st).fetched
          = st.fetched ++ ps.filter (fun q => !E q) ∧
      (processPlots ctx i ps st).allFeatures
          = .jArr (fs ++ (ps.filter (fun q => !E q)).filterMap
              (plotFeatureOf ctx.env ctx.gis ctx.districtName ctx.talukName
                ctx.villageName)) ∧
      ∃ outs, (processPlots ctx i ps st).outcomes = st.outcomes ++ outs ∧
        outs.map Prod.fst = ps ∧
        (∀ qo ∈ outs, qo.2 ≠ POutcome.alreadyPresent →
          setMem st.existing (.jStr qo.1) = false) ∧
        (processPlots ctx i ps st).existing
          = st.existing ++ outs.filterMap
              (fun qo => if qo.2 = POutcome.persisted then some (JVal.jStr qo.1)
                else none) := by
  intro ps
  induction ps with
  | nil =>
      intro i st fs E hr hf hnd hag
      rw [processPlots_nil]
      exact ⟨by simp, by simpa using hf, [], by simp, rfl, by simp, by simp⟩
  | cons p rest ih =>
      intro i st fs E hr hf hnd hag
      obtain ⟨hpnr, hndr⟩ := List.nodup_cons.mp hnd
      have hagp := hag p (List.mem_cons_self p rest)
      rcases hc : classifyPlot ctx.env ctx.gis ctx.districtName ctx.talukName
          ctx.villageName p st.existing with _ | o | f | e
      · -- already present
        have hmem : setMem st.existing (.jStr p) = true :=
          (classify_skip_iff ctx.env ctx.gis ctx.districtName ctx.talukName
            ctx.villageName p st.existing).mp hc
        have hEp : E p = true := hagp ▸ hmem
        have hstep := stepPlot_skip ctx i p st hc
        have hra : (stepPlot ctx i p st).raised = none := by rw [hstep]; exact hr
        rw [processPlots_cons_ok ctx i p rest st hra, hstep]
        obtain ⟨h1, h2, outs, h3, h4, h5, h6⟩ :=
          ih (i + 1) { st with outcomes := st.outcomes ++ [(p, .alreadyPresent)] }
            fs E hr hf hndr (fun q hq => hag q (List.mem_cons_of_mem p hq))
        refine ⟨?_, ?_, (p, .alreadyPresent) :: outs, ?_, ?_, ?_, ?_⟩
        · rw [h1]
          simp [hEp]
        · rw [h2]
          simp [hEp]
        · rw [h3]
          simp
        · simpa using h4
        · intro qo hqo hne
          rcases List.mem_cons.mp hqo with rfl | hqo
          · exact absurd rfl hne
          · exact h5 qo hqo hne
        · rw [h6]
          simp
      · -- fetched, failed
        have hns : setMem st.existing (.jStr p) = false :=
          classify_not_skip_not_mem ctx.env ctx.gis ctx.districtName ctx.talukName
            ctx.villageName p st.existing (by rw [hc]; intro hx; cases hx)
        have hEp : E p = false := hagp ▸ hns
        have hof : plotFeatureOf ctx.env ctx.gis ctx.districtName ctx.talukName
            ctx.villageName p = none :=
          classify_fail_plotFeature ctx.env ctx.gis ctx.districtName ctx.talukName
            ctx.villageName p st.existing o hns hc
        have hone : o ≠ POutcome.persisted := by
          rcases classify_fail_elim ctx.env ctx.gis ctx.districtName ctx.talukName
              ctx.villageName p st.existing o hc with rfl | rfl | rfl <;>
            (intro hx; cases hx)
        have hstep := stepPlot_fail ctx i p st o hc
        have hra : (stepPlot ctx i p st).raised = none := by rw [hstep]; exact hr
        rw [processPlots_cons_ok ctx i p rest st hra, hstep]
        obtain ⟨h1, h2, outs, h3, h4, h5, h6⟩ :=
          ih (i + 1)
            { st with fetched := st.fetched ++ [p], outcomes := st.outcomes ++ [(p, o)] }
            fs E hr hf hndr (fun q hq => hag q (List.mem_cons_of_mem p hq))
        refine ⟨?_, ?_, (p, o) :: outs, ?_, ?_, ?_, ?_⟩
        · rw [h1]
          simp [hEp]
        · rw [h2]
          simp [hEp, hof]
        · rw [h3]
          simp
        · simpa using h4
        · intro qo hqo hne
          rcases List.mem_cons.mp hqo with rfl | hqo
          · exact hns
          · exact h5 qo hqo hne
        · rw [h6]
          simp [hone]
      · -- success
        have hns : setMem st.existing (.jStr p) = false :=
          classify_not_skip_not_mem ctx.env ctx.gis ctx.districtName ctx.talukName
            ctx.villageName p st.existing (by rw [hc]; intro hx; cases hx)
        have hEp : E p = false := hagp ▸ hns
        have hof : plotFeatureOf ctx.env ctx.gis ctx.districtName ctx.talukName
            ctx.villageName p = some f :=
          classify_success_plotFeature ctx.env ctx.gis ctx.districtName ctx.talukName
            ctx.villageName p st.existing f hns hc
        cases hwl : ctx.writeFails st.writeCount with
        | true =>
            have hstep := stepPlot_success_wfail ctx i p st f fs hc hf hwl
            have hra : (stepPlot ctx i p st).raised = none := by rw [hstep]; exact hr
            rw [processPlots_cons_ok ctx i p rest st hra, hstep]
            obtain ⟨h1, h2, outs, h3, h4, h5, h6⟩ :=
              ih (i + 1)
                { st with allFeatures := .jArr (fs ++ [f]), writeCount := st.writeCount + 1, fetched := st.fetched ++ [p], effects := st.effects ++ [.fileWriteFail ctx.outputPath], outcomes := st.outcomes ++ [(p, .persistFailed)] }
                (fs ++ [f]) E hr rfl hndr (fun q hq => hag q (List.mem_cons_of_mem p hq))
            refine ⟨?_, ?_, (p, .persistFailed) :: outs, ?_, ?_, ?_, ?_⟩
            · rw [h1]
              simp [hEp]
            · rw [h2]
              simp [hEp, hof]
            · rw [h3]
              simp
            · simpa using h4
            · intro qo hqo hne
              rcases List.mem_cons.mp hqo with rfl | hqo
              · exact hns
              · exact h5 qo hqo hne
            · rw [h6]
              simp
        | false =>
            have hstep := stepPlot_success_wok ctx i p st f fs hc hf hwl
            have hra : (stepPlot ctx i p st).raised = none := by rw [hstep]; exact hr
            rw [processPlots_cons_ok ctx i p rest st hra, hstep]
            have hadd : setAdd st.existing (.jStr p) = st.existing ++ [.jStr p] :=
              setAdd_of_not_mem st.existing (.jStr p) hns
            have hag' : ∀ q ∈ rest,
                setMem (setAdd st.existing (.jStr p)) (.jStr q) = E q := by
              intro q hq
              have hpq : p ≠ q := fun hx => hpnr (hx ▸ hq)
              rw [setMem_setAdd_jStr_of_ne st.existing p q hpq]
              exact hag q (List.mem_cons_of_mem p hq)
            obtain ⟨h1, h2, outs, h3, h4, h5, h6⟩ :=
              ih (i + 1)
                { st with allFeatures := .jArr (fs ++ [f]), writeCount := st.writeCount + 1, fetched := st.fetched ++ [p], effects := st.effects ++ [.fileWrite ctx.outputPath (mkOutput ctx (i + 1) (fs ++ [f]))], writes := st.writes ++ [mkOutput ctx (i + 1) (fs ++ [f])], existing := setAdd st.existing (.jStr p), outcomes := st.outcomes ++ [(p, .persisted)] }
                (fs ++ [f]) E hr rfl hndr hag'
            refine ⟨?_, ?_, (p, .persisted) :: outs, ?_, ?_, ?_, ?_⟩
            · rw [h1]
              simp [hEp]
            · rw [h2]
              simp [hEp, hof]
            · rw [h3]
              simp
            · simpa using h4
            · intro qo hqo hne
              rcases List.mem_cons.mp hqo with rfl | hqo
              · exact hns
              · have := h5 qo hqo hne
                by_contra hx
                rw [Bool.not_eq_false] at hx
                rw [setMem_setAdd_of_mem st.existing (.jStr qo.1) (.jStr p) hx] at this
                cases this
            · rw [h6, hadd]
              simp
      · exact absurd hc (classify_no_raise ctx.env hwf ctx.gis ctx.districtName
          ctx.talukName ctx.villageName p st.existing e)

theorem processPlots_writes_mono (ctx : Ctx) (hwf : EnvWF ctx.env) :
    ∀ (ps : List String) (i : Nat) (st : RunState) (fs : List JVal),
      st.raised = none → st.allFeatures = .jArr fs →
      ∃ dw, (processPlots ctx i ps st).writes = st.writes ++ dw := by
  intro ps
  induction ps with
  | nil =>
      intro i st fs hr hf
      exact ⟨[], by simp [processPlots_nil]⟩
  | cons p rest ih =>
      intro i st fs hr hf
      rcases hc : classifyPlot ctx.env ctx.gis ctx.districtName ctx.talukName
          ctx.villageName p st.existing with _ | o | f | e
      · have hstep := stepPlot_skip ctx i p st hc
        have hra : (stepPlot ctx i p st).raised = none := by rw [hstep]; exact hr
        rw [processPlots_cons_ok ctx i p rest st hra, hstep]
        exact ih (i + 1) _ fs hr hf
      · have hstep := stepPlot_fail ctx i p st o hc
        have hra : (stepPlot ctx i p st).raised = none := by rw [hstep]; exact hr
        rw [processPlots_cons_ok ctx i p rest st hra, hstep]
        exact ih (i + 1) _ fs hr hf
      · cases hwl : ctx.writeFails st.writeCount with
        | true =>
            have hstep := stepPlot_success_wfail ctx i p st f fs hc hf hwl
            have hra : (stepPlot ctx i p st).raised = none := by rw [hstep]; exact hr
            rw [processPlots_cons_ok ctx i p rest st hra, hstep]
            exact ih (i + 1) _ (fs ++ [f]) hr rfl
        | false =>
            have hstep := stepPlot_success_wok ctx i p st f fs hc hf hwl
            have hra : (stepPlot ctx i p st).raised = none := by rw [hstep]; exact hr
            rw [processPlots_cons_ok ctx i p rest st hra, hstep]
            obtain ⟨dw, hdw⟩ := ih (i + 1)
              { st with allFeatures := .jArr (fs ++ [f]), writeCount := st.writeCount + 1, fetched := st.fetched ++ [p], effects := st.effects ++ [.fileWrite ctx.outputPath (mkOutput ctx (i + 1) (fs ++ [f]))], writes := st.writes ++ [mkOutput ctx (i + 1) (fs ++ [f])], existing := setAdd st.existing (.jStr p), outcomes := st.outcomes ++ [(p, .persisted)] }
              (fs ++ [f]) hr rfl
            refine ⟨mkOutput ctx (i + 1) (fs ++ [f]) :: dw, ?_⟩
            rw [hdw]
            simp
      · exact absurd hc (classify_no_raise ctx.env hwf ctx.gis ctx.districtName
          ctx.talukName ctx.villageName p st.existing e)

/-- When every dump succeeds, the content most recently written by the
loop holds exactly the features the loop started with followed by all
features the fresh plots of the processed segment yielded. -/
theorem processPlots_lastWrite (ctx : Ctx) (hwf : EnvWF ctx.env)
    (hok : ∀ k, ctx.writeFails k = false) :
    ∀ (ps : List String) (i : Nat) (st : RunState) (fs : List JVal) (E : String → Bool),
      st.raised = none → st.allFeatures = .jArr fs → ps.Nodup →
      (∀ q ∈ ps, setMem st.existing (.jStr q) = E q) →
      (∀ c, st.writes.getLast? = some c → featListOf c = fs) →
      ∀ c, (processPlots ctx i ps st).writes.getLast? = some c →
        featListOf c = fs ++ (ps.filter (fun q => !E q)).filterMap
          (plotFeatureOf ctx.env ctx.gis ctx.districtName ctx.talukName
            ctx.villageName) := by
  intro ps
  induction ps with
  | nil =>
      intro i st fs E hr hf hnd hag hlast c hc
      rw [processPlots_nil] at hc
      rw [hlast c hc]
      simp
  | cons p rest ih =>
      intro i st fs E hr hf hnd hag hlast c hlc
      obtain ⟨hpnr, hndr⟩ := List.nodup_cons.mp hnd
      have hagp := hag p (List.mem_cons_self p rest)
      rcases hc : classifyPlot ctx.env ctx.gis ctx.districtName ctx.talukName
          ctx.villageName p st.existing with _ | o | f | e
      · have hmem : setMem st.existing (.jStr p) = true :=
          (classify_skip_iff ctx.env ctx.gis ctx.districtName ctx.talukName
            ctx.villageName p st.existing).mp hc
        have hEp : E p = true := hagp ▸ hmem
        have hstep := stepPlot_skip ctx i p st hc
        have hra : (stepPlot ctx i p st).raised = none := by rw [hstep]; exact hr
        rw [processPlots_cons_ok ctx i p rest st hra, hstep] at hlc
        have := ih (i + 1) { st with outcomes := st.outcomes ++ [(p, .alreadyPresent)] }
          fs E hr hf hndr (fun q hq => hag q (List.mem_cons_of_mem p hq)) hlast c hlc
        rw [this]
        simp [hEp]
      · have hns : setMem st.existing (.jStr p) = false :=
          classify_not_skip_not_mem ctx.env ctx.gis ctx.districtName ctx.talukName
            ctx.villageName p st.existing (by rw [hc]; intro hx; cases hx)
        have hEp : E p = false := hagp ▸ hns
        have hof : plotFeatureOf ctx.env ctx.gis ctx.districtName ctx.talukName
            ctx.villageName p = none :=
          classify_fail_plotFeature ctx.env ctx.gis ctx.districtName ctx.talukName
            ctx.villageName p st.existing o hns hc
        have hstep := stepPlot_fail ctx i p st o hc
        have hra : (stepPlot ctx i p st).raised = none := by rw [hstep]; exact hr
        rw [processPlots_cons_ok ctx i p rest st hra, hstep] at hlc
        have := ih (i + 1)
          { st with fetched := st.fetched ++ [p], outcomes := st.outcomes ++ [(p, o)] }
          fs E hr hf hndr (fun q hq => hag q (List.mem_cons_of_mem p hq)) hlast c hlc
        rw [this]
        simp [hEp, hof]
      · have hns : setMem st.existing (.jStr p) = false :=
          classify_not_skip_not_mem ctx.env ctx.gis ctx.districtName ctx.talukName
            ctx.villageName p st.existing (by rw [hc]; intro hx; cases hx)
        have hEp : E p = false := hagp ▸ hns
        have hof : plotFeatureOf ctx.env ctx.gis ctx.districtName ctx.talukName
            ctx.villageName p = some f :=
          classify_success_plotFeature ctx.env ctx.gis ctx.districtName ctx.talukName
            ctx.villageName p st.existing f hns hc
        have hwl : ctx.writeFails st.writeCount = false := hok st.writeCount
        have hstep := stepPlot_success_wok ctx i p st f fs hc hf hwl
        have hra : (stepPlot ctx i p st).raised = none := by rw [hstep]; exact hr
        rw [processPlots_cons_ok ctx i p rest st hra, hstep] at hlc
        have hag' : ∀ q ∈ rest,
            setMem (setAdd st.existing (.jStr p)) (.jStr q) = E q := by
          intro q hq
          have hpq : p ≠ q := fun hx => hpnr (hx ▸ hq)
          rw [setMem_setAdd_jStr_of_ne st.existing p q hpq]
          exact hag q (List.mem_cons_of_mem p hq)
        have hlast' : ∀ c2, (st.writes ++ [mkOutput ctx (i + 1) (fs ++ [f])]).getLast?
            = some c2 → featListOf c2 = fs ++ [f] := by
          intro c2 hc2
          rw [List.getLast?_concat] at hc2
          cases hc2
          rw [featListOf_mkOutput]
        have := ih (i + 1)
          { st with allFeatures := .jArr (fs ++ [f]), writeCount := st.writeCount + 1, fetched := st.fetched ++ [p], effects := st.effects ++ [.fileWrite ctx.outputPath (mkOutput ctx (i + 1) (fs ++ [f]))], writes := st.writes ++ [mkOutput ctx (i + 1) (fs ++ [f])], existing := setAdd st.existing (.jStr p), outcomes := st.outcomes ++ [(p, .persisted)] }
          (fs ++ [f]) E hr rfl hndr hag' hlast' c hlc
        rw [this]
        simp [hEp, hof]
      · exact absurd hc (classify_no_raise ctx.env hwf ctx.gis ctx.districtName
          ctx.talukName ctx.villageName p st.existing e)

/-- When every dump succeeds and some fresh plot of the segment yields a
feature, at least one write happened. -/
theorem processPlots_writes_ne_nil (ctx : Ctx) (hwf : EnvWF ctx.env)
    (hok : ∀ k, ctx.writeFails k = false) :
    ∀ (ps : List String) (i : Nat) (st : RunState) (fs : List JVal) (E : String → Bool),
      st.raised = none → st.allFeatures = .jArr fs → ps.Nodup →
      (∀ q ∈ ps, setMem st.existing (.jStr q) = E q) →
      (ps.filter (fun q => !E q)).filterMap
        (plotFeatureOf ctx.env ctx.gis ctx.districtName ctx.talukName
          ctx.villageName) ≠ [] →
      (processPlots ctx i ps st).writes ≠ [] := by
  intro ps
  induction ps with
  | nil =>
      intro i st fs E hr hf hnd hag hne
      simp at hne
  | cons p rest ih =>
      intro i st fs E hr hf hnd hag hne
      obtain ⟨hpnr, hndr⟩ := List.nodup_cons.mp hnd
      have hagp := hag p (List.mem_cons_self p rest)
      rcases hc : classifyPlot ctx.env ctx.gis ctx.districtName ctx.talukName
          ctx.villageName p st.existing with _ | o | f | e
      · have hmem : setMem st.existing (.jStr p) = true :=
          (classify_skip_iff ctx.env ctx.gis ctx.districtName ctx.talukName
            ctx.villageName p st.existing).mp hc
        have hEp : E p = true := hagp ▸ hmem
        have hstep := stepPlot_skip ctx i p st hc
        have hra : (stepPlot ctx i p st).raised = none := by rw [hstep]; exact hr
        rw [processPlots_cons_ok ctx i p rest st hra, hstep]
        refine ih (i + 1) _ fs E hr hf hndr
          (fun q hq => hag q (List.mem_cons_of_mem p hq)) ?_
        simpa [hEp] using hne
      · have hns : setMem st.existing (.jStr p) = false :=
          classify_not_skip_not_mem ctx.env ctx.gis ctx.districtName ctx.talukName
            ctx.villageName p st.existing (by rw [hc]; intro hx; cases hx)
        have hEp : E p = false := hagp ▸ hns
        have hof : plotFeatureOf ctx.env ctx.gis ctx.districtName ctx.talukName
            ctx.villageName p = none :=
          classify_fail_plotFeature ctx.env ctx.gis ctx.districtName ctx.talukName
            ctx.villageName p st.existing o hns hc
        have hstep := stepPlot_fail ctx i p st o hc
        have hra : (stepPlot ctx i p st).raised = none := by rw [hstep]; exact hr
        rw [processPlots_cons_ok ctx i p rest st hra, hstep]
        refine ih (i + 1) _ fs E hr hf hndr
          (fun q hq => hag q (List.mem_cons_of_mem p hq)) ?_
        simpa [hEp, hof] using hne
      · have hwl : ctx.writeFails st.writeCount = false := hok st.writeCount
        have hstep := stepPlot_success_wok ctx i p st f fs hc hf hwl
        have hra : (stepPlot ctx i p st).raised = none := by rw [hstep]; exact hr
        rw [processPlots_cons_ok ctx i p rest st hra, hstep]
        obtain ⟨dw, hdw⟩ := processPlots_writes_mono ctx hwf rest (i + 1)
          { st with allFeatures := .jArr (fs ++ [f]), writeCount := st.writeCount + 1, fetched := st.fetched ++ [p], effects := st.effects ++ [.fileWrite ctx.outputPath (mkOutput ctx (i + 1) (fs ++ [f]))], writes := st.writes ++ [mkOutput ctx (i + 1) (fs ++ [f])], existing := setAdd st.existing (.jStr p), outcomes := st.outcomes ++ [(p, .persisted)] }
          (fs ++ [f]) hr rfl
        rw [hdw]
        intro hx
        rcases List.append_eq_nil.mp hx with ⟨hx1, _⟩
        rcases List.append_eq_nil.mp hx1 with ⟨_, hx2⟩
        cases hx2
      · exact absurd hc (classify_no_raise ctx.env hwf ctx.gis ctx.districtName
          ctx.talukName ctx.villageName p st.existing e)

theorem extract_load_error (inp : ExtractInput) (e : PyErr)
    (h : loadExisting inp.existingFile = .error e) :
    extract inp = { st1Of inp (.jArr []) [] with raised := some e } := by
  unfold extract
  rw [h]

theorem extract_gis_falsy (inp : ExtractInput) (feats vinfo0 : JVal) (ex : List JVal)
    (h : loadExisting inp.existingFile = .ok (feats, vinfo0, ex))
    (hg : optStrFalsy inp.gisCode = true) :
    extract inp = st1Of inp feats ex := by
  unfold extract
  rw [h]
  simp [hg]

theorem extract_plotList_empty (inp : ExtractInput) (feats vinfo0 : JVal)
    (ex : List JVal)
    (h : loadExisting inp.existingFile = .ok (feats, vinfo0, ex))
    (hg : optStrFalsy inp.gisCode = false)
    (hpl : (inp.env.plotList (inp.gisCode.getD "")).isEmpty = true) :
    extract inp = st1Of inp feats ex := by
  unfold extract
  rw [h]
  simp [hg, hpl]

theorem extract_shortCircuit (inp : ExtractInput) (feats vinfo0 : JVal)
    (ex : List JVal)
    (h : loadExisting inp.existingFile = .ok (feats, vinfo0, ex))
    (hg : optStrFalsy inp.gisCode = false)
    (hpl : (inp.env.plotList (inp.gisCode.getD "")).isEmpty = false)
    (hlen : ex.length = (inp.env.plotList (inp.gisCode.getD "")).length) :
    extract inp = st1Of inp feats ex := by
  unfold extract
  rw [h]
  simp [hg, hpl, hlen]

theorem extract_loop (inp : ExtractInput) (feats vinfo0 : JVal) (ex : List JVal)
    (h : loadExisting inp.existingFile = .ok (feats, vinfo0, ex))
    (hg : optStrFalsy inp.gisCode = false)
    (hpl : (inp.env.plotList (inp.gisCode.getD "")).isEmpty = false)
    (hlen : ex.length ≠ (inp.env.plotList (inp.gisCode.getD "")).length) :
    extract inp = processPlots (ctxOf inp vinfo0) 0
      (inp.env.plotList (inp.gisCode.getD "")) (st1Of inp feats ex) := by
  unfold extract
  rw [h]
  simp [hg, hpl, hlen]

/-- C7: `get_village_gis_code`, with the configured category as first
constituent, returns `None` if and only if at least one of its five
inputs is empty or absent; for all non-empty inputs it returns the
string equal to their concatenation in the fixed order category, map
type, district, taluk, village. -/
theorem C7_identifier_totality (c m d t v : Option String) :
    (get_village_gis_code c m d t v = none ↔
      (optStrFalsy c = true ∨ optStrFalsy m = true ∨ optStrFalsy d = true ∨
        optStrFalsy t = true ∨ optStrFalsy v = true)) ∧
    (optStrFalsy c = false → optStrFalsy m = false → optStrFalsy d = false →
      optStrFalsy t = false → optStrFalsy v = false →
      get_village_gis_code c m d t v
        = some ((c.getD "") ++ (m.getD "") ++ (d.getD "") ++ (t.getD "")
            ++ (v.getD ""))) := by
  constructor
  · unfold get_village_gis_code
    rcases hb : (optStrFalsy c || optStrFalsy m || optStrFalsy d || optStrFalsy t
        || optStrFalsy v) with _ | _
    · simp only [hb, Bool.false_eq_true, if_false]
      simp only [Bool.or_eq_false_iff] at hb
      obtain ⟨⟨⟨⟨h1, h2⟩, h3⟩, h4⟩, h5⟩ := hb
      simp [h1, h2, h3, h4, h5]
    · simp only [hb, if_true]
      simp only [Bool.or_eq_true] at hb
      simp only [true_iff]
      tauto
  · intro h1 h2 h3 h4 h5
    unfold get_village_gis_code
    simp [h1, h2, h3, h4, h5]

/-- Witness for C7 at concrete inputs: all five constituents present
gives the fixed-order concatenation; an absent map-type code gives
`None`. -/
theorem C7_witness :
    get_village_gis_code (some "U") (some "M1") (some "27") (some "T2") (some "V3")
      = some "UM127T2V3" ∧
    get_village_gis_code (some "U") none (some "27") (some "T2") (some "V3")
      = none := by
  constructor
  · have := (C7_identifier_totality (some "U") (some "M1") (some "27") (some "T2")
      (some "V3")).2 rfl rfl rfl rfl rfl
    simpa using this
  · exact (C7_identifier_totality (some "U") none (some "27") (some "T2")
      (some "V3")).1.mpr (Or.inr (Or.inl rfl))

theorem stepPlot_raise (ctx : Ctx) (i : Nat) (p : String) (st : RunState) (e : PyErr)
    (hc : classifyPlot ctx.env ctx.gis ctx.districtName ctx.talukName ctx.villageName
      p st.existing = .raise e) :
    stepPlot ctx i p st = { st with fetched := st.fetched ++ [p], raised := some e } := by
  unfold stepPlot
  rw [hc]

theorem stepPlot_success_badfeat (ctx : Ctx) (i : Nat) (p : String) (st : RunState)
    (f : JVal)
    (hc : classifyPlot ctx.env ctx.gis ctx.districtName ctx.talukName ctx.villageName
      p st.existing = .success f)
    (hf : ∀ fs, st.allFeatures ≠ .jArr fs) :
    stepPlot ctx i p st
      = { st with fetched := st.fetched ++ [p], raised := some .attributeError } := by
  unfold stepPlot
  rw [hc]
  cases hfv : st.allFeatures with
  | jArr fs => exact absurd hfv (hf fs)
  | jNull => rfl
  | jBool b => rfl
  | jNum n => rfl
  | jStr s => rfl
  | jObj kvs => rfl

/-- Every effect appended by one loop iteration is a dump (successful or
failed) to the village's output path — with no well-formedness
assumptions at all. -/
theorem stepPlot_effects (ctx : Ctx) (i : Nat) (p : String) (st : RunState) :
    ∃ de, (stepPlot ctx i p st).effects = st.effects ++ de ∧
      ∀ e ∈ de, e = .fileWriteFail ctx.outputPath ∨
        ∃ c, e = .fileWrite ctx.outputPath c := by
  rcases hc : classifyPlot ctx.env ctx.gis ctx.districtName ctx.talukName
      ctx.villageName p st.existing with _ | o | f | e
  · rw [stepPlot_skip ctx i p st hc]
    exact ⟨[], by simp, by simp⟩
  · rw [stepPlot_fail ctx i p st o hc]
    exact ⟨[], by simp, by simp⟩
  · cases hfv : st.allFeatures with
    | jArr fs =>
        cases hwl : ctx.writeFails st.writeCount with
        | true =>
            rw [stepPlot_success_wfail ctx i p st f fs hc hfv hwl]
            refine ⟨[.fileWriteFail ctx.outputPath], by simp, ?_⟩
            intro e he
            rcases List.mem_singleton.mp he with rfl
            exact Or.inl rfl
        | false =>
            rw [stepPlot_success_wok ctx i p st f fs hc hfv hwl]
            refine ⟨[.fileWrite ctx.outputPath (mkOutput ctx (i + 1) (fs ++ [f]))],
              by simp, ?_⟩
            intro e he
            rcases List.mem_singleton.mp he with rfl
            exact Or.inr ⟨_, rfl⟩
    | jNull =>
        rw [stepPlot_success_badfeat ctx i p st f hc (fun fs h => by rw [hfv] at h; cases h)]
        exact ⟨[], by simp, by simp⟩
    | jBool b =>
        rw [stepPlot_success_badfeat ctx i p st f hc (fun fs h => by rw [hfv] at h; cases h)]
        exact ⟨[], by simp, by simp⟩
    | jNum n =>
        rw [stepPlot_success_badfeat ctx i p st f hc (fun fs h => by rw [hfv] at h; cases h)]
        exact ⟨[], by simp, by simp⟩
    | jStr s =>
        rw [stepPlot_success_badfeat ctx i p st f hc (fun fs h => by rw [hfv] at h; cases h)]
        exact ⟨[], by simp, by simp⟩
    | jObj kvs =>
        rw [stepPlot_success_badfeat ctx i p st f hc (fun fs h => by rw [hfv] at h; cases h)]
        exact ⟨[], by simp, by simp⟩
  · rw [stepPlot_raise ctx i p st e hc]
    exact ⟨[], by simp, by simp⟩

/-- Every effect appended by the whole loop targets the village's output
path, raised or not. -/
theorem processPlots_effects_paths (ctx : Ctx) :
    ∀ (ps : List String) (i : Nat) (st : RunState),
      ∃ de, (processPlots ctx i ps st).effects = st.effects ++ de ∧
        ∀ e ∈ de, e = .fileWriteFail ctx.outputPath ∨
          ∃ c, e = .fileWrite ctx.outputPath c := by
  intro ps
  induction ps with
  | nil =>
      intro i st
      exact ⟨[], by simp [processPlots_nil], by simp⟩
  | cons p rest ih =>
      intro i st
      obtain ⟨de1, hde1, hok1⟩ := stepPlot_effects ctx i p st
      rw [processPlots_cons]
      cases hra : (stepPlot ctx i p st).raised.isSome with
      | true =>
          simp only [hra, if_true]
          exact ⟨de1, hde1, hok1⟩
      | false =>
          simp only [hra, Bool.false_eq_true, if_false]
          obtain ⟨de2, hde2, hok2⟩ := ih (i + 1) (stepPlot ctx i p st)
          refine ⟨de1 ++ de2, ?_, ?_⟩
          · rw [hde2, hde1, List.append_assoc]
          · intro e he
            rcases List.mem_append.mp he with he | he
            · exact hok1 e he
            · exact hok2 e he

/-- An environment whose remote calls all fail (network errors are
caught inside the session methods and surface as `None` / `[]`). -/
def emptyEnv : Env :=
  { villageInfo := fun _ => none, plotList := fun _ => [],
    plotGeometry := fun _ _ => none, wktToGeojson := fun _ => none }

/-- Modelled from the spec: the sanitization §6 prescribes for file
paths, which "replaces whitespace and path-separator characters" in a
name — here applied as replacing the space and slash characters. -/
def specSanitizeName (s : String) : String :=
  replaceChar '/' '_' (replaceChar ' ' '_' s)

/-- C9, amended: every file-system effect of one extraction targets the
taluk directory `<outputRoot>/<taluk name with spaces replaced>` or the
output file `<taluk dir>/<village name with spaces and slashes
replaced>.geojson`; only the village name has path separators
sanitized, and only the literal space character counts as whitespace. -/
theorem C9_output_path_scheme (inp : ExtractInput) :
    ∀ e ∈ (extract inp).effects,
      e = .mkdirP (talukDirOf inp) ∨ e = .fileWriteFail (outputPathOf inp) ∨
        ∃ c, e = .fileWrite (outputPathOf inp) c := by
  rcases hload : loadExisting inp.existingFile with e | ⟨feats, vinfo0, ex⟩
  · rw [extract_load_error inp e hload]
    intro e he
    rcases List.mem_singleton.mp he with rfl
    exact Or.inl rfl
  · cases hg : optStrFalsy inp.gisCode with
    | true =>
        rw [extract_gis_falsy inp feats vinfo0 ex hload hg]
        intro e he
        rcases List.mem_singleton.mp he with rfl
        exact Or.inl rfl
    | false =>
        cases hpl : (inp.env.plotList (inp.gisCode.getD "")).isEmpty with
        | true =>
            rw [extract_plotList_empty inp feats vinfo0 ex hload hg hpl]
            intro e he
            rcases List.mem_singleton.mp he with rfl
            exact Or.inl rfl
        | false =>
            by_cases hlen : ex.length = (inp.env.plotList (inp.gisCode.getD "")).length
            · rw [extract_shortCircuit inp feats vinfo0 ex hload hg hpl hlen]
              intro e he
              rcases List.mem_singleton.mp he with rfl
              exact Or.inl rfl
            · rw [extract_loop inp feats vinfo0 ex hload hg hpl hlen]
              obtain ⟨de, hde, hok⟩ := processPlots_effects_paths (ctxOf inp vinfo0)
                (inp.env.plotList (inp.gisCode.getD "")) 0 (st1Of inp feats ex)
              rw [hde]
              intro e he
              rcases List.mem_append.mp he with he | he
              · rcases List.mem_singleton.mp he with rfl
                exact Or.inl rfl
              · exact (hok e he).imp_left id |>.imp_right id |> Or.inr

/-- Concrete input exhibiting the unsanitized taluk separator: taluk
name `a/b`, village name `v w`. -/
def c9inp : ExtractInput :=
  { gisCode := some "G", districtName := "D", talukName := "a/b",
    villageName := "v w", outputDir := "out", stateCode := "27",
    existingFile := none, env := emptyEnv, writeFails := fun _ => false }

/-- Counterexample to C9 as stated: for taluk name `a/b` the code's
output path keeps the slash (producing a deeper directory), while the
claimed scheme — both names sanitized for whitespace and path
separators — would give `out/a_b/v_w.geojson`. -/
theorem C9_cex :
    outputPathOf c9inp = "out/a/b/v_w.geojson" ∧
    pyPathJoin (pyPathJoin c9inp.outputDir (specSanitizeName c9inp.talukName))
        (specSanitizeName c9inp.villageName ++ ".geojson") = "out/a_b/v_w.geojson" ∧
    "out/a/b/v_w.geojson" ≠ "out/a_b/v_w.geojson" := by
  refine ⟨rfl, rfl, by decide⟩

/-- Witness for C9 (amended) at a concrete input: the single effect of a
skipped village is the taluk-directory creation. -/
theorem C9_witness :
    FsEffect.mkdirP (talukDirOf c9inp) = .mkdirP (talukDirOf c9inp) ∨
    FsEffect.mkdirP (talukDirOf c9inp) = .fileWriteFail (outputPathOf c9inp) ∨
    ∃ c, FsEffect.mkdirP (talukDirOf c9inp) = .fileWrite (outputPathOf c9inp) c :=
  C9_output_path_scheme c9inp (.mkdirP (talukDirOf c9inp))
    (by rw [extract_plotList_empty c9inp (.jArr []) (.jObj []) [] rfl rfl rfl]
        exact List.mem_singleton.mpr rfl)

/-- C10: the per-taluk directory is created unconditionally on entry —
the first effect of every extraction, whatever happens later — and a
village skipped because its identifier is falsy or its plot list is
empty performs no file-system effect besides that directory creation. -/
theorem C10_taluk_dir_unconditional (inp : ExtractInput) :
    (∃ rest, (extract inp).effects = .mkdirP (talukDirOf inp) :: rest) ∧
    ((optStrFalsy inp.gisCode = true ∨
        (inp.env.plotList (inp.gisCode.getD "")).isEmpty = true) →
      (extract inp).effects = [.mkdirP (talukDirOf inp)]) := by
  rcases hload : loadExisting inp.existingFile with e | ⟨feats, vinfo0, ex⟩
  · rw [extract_load_error inp e hload]
    exact ⟨⟨[], rfl⟩, fun _ => rfl⟩
  · cases hg : optStrFalsy inp.gisCode with
    | true =>
        rw [extract_gis_falsy inp feats vinfo0 ex hload hg]
        exact ⟨⟨[], rfl⟩, fun _ => rfl⟩
    | false =>
        cases hpl : (inp.env.plotList (inp.gisCode.getD "")).isEmpty with
        | true =>
            rw [extract_plotList_empty inp feats vinfo0 ex hload hg hpl]
            exact ⟨⟨[], rfl⟩, fun _ => rfl⟩
        | false =>
            refine ⟨?_, ?_⟩
            · by_cases hlen : ex.length = (inp.env.plotList (inp.gisCode.getD "")).length
              · rw [extract_shortCircuit inp feats vinfo0 ex hload hg hpl hlen]
                exact ⟨[], rfl⟩
              · rw [extract_loop inp feats vinfo0 ex hload hg hpl hlen]
                obtain ⟨de, hde, _⟩ := processPlots_effects_paths (ctxOf inp vinfo0)
                  (inp.env.plotList (inp.gisCode.getD "")) 0 (st1Of inp feats ex)
                exact ⟨de, by simpa using hde⟩
            · intro hstop
              rcases hstop with hstop | hstop <;> cases hstop

/-- Concrete skipped village: its gis code is absent (`None`). -/
def c10inp : ExtractInput :=
  { gisCode := none, districtName := "D", talukName := "T V", villageName := "V",
    outputDir := "out", stateCode := "27", existingFile := none, env := emptyEnv,
    writeFails := fun _ => false }

/-- Witness for C10: the `None`-identifier village leaves exactly the
taluk directory creation behind. -/
theorem C10_witness :
    (extract c10inp).effects = [.mkdirP (talukDirOf c10inp)] :=
  (C10_taluk_dir_unconditional c10inp).2 (Or.inl rfl)

/-- When every plot of the segment is already in the recovered set, the
loop only records skip outcomes: nothing is fetched, nothing is written,
no effect is performed. -/
theorem processPlots_skipAll (ctx : Ctx) :
    ∀ (ps : List String) (i : Nat) (st : RunState),
      (∀ q ∈ ps, setMem st.existing (.jStr q) = true) → st.raised = none →
      processPlots ctx i ps st
        = { st with outcomes := st.outcomes
            ++ ps.map (fun q => (q, POutcome.alreadyPresent)) } := by
  intro ps
  induction ps with
  | nil =>
      intro i st hall hr
      rw [processPlots_nil]
      simp
  | cons p rest ih =>
      intro i st hall hr
      have hc : classifyPlot ctx.env ctx.gis ctx.districtName ctx.talukName
          ctx.villageName p st.existing = .skip :=
        (classify_skip_iff ctx.env ctx.gis ctx.districtName ctx.talukName
          ctx.villageName p st.existing).mpr (hall p (List.mem_cons_self p rest))
      have hstep := stepPlot_skip ctx i p st hc
      have hra : (stepPlot ctx i p st).raised = none := by rw [hstep]; exact hr
      rw [processPlots_cons_ok ctx i p rest st hra, hstep]
      rw [ih (i + 1) { st with outcomes := st.outcomes ++ [(p, .alreadyPresent)] }
        (fun q hq => hall q (List.mem_cons_of_mem p hq)) hr]
      simp

/-- C2: for every village where the plot numbers recovered from the
existing output file cover the full fetched plot list, the extractor
returns normally, fetches no plot detail, writes nothing, and its only
file-system effect is the taluk directory creation. -/
theorem C2_resume_short_circuit (inp : ExtractInput) (feats vinfo0 : JVal)
    (ex : List JVal)
    (hload : loadExisting inp.existingFile = .ok (feats, vinfo0, ex))
    (hcov : ∀ q ∈ inp.env.plotList (inp.gisCode.getD ""), setMem ex (.jStr q) = true) :
    (extract inp).fetched = [] ∧ (extract inp).writes = [] ∧
    (extract inp).effects = [.mkdirP (talukDirOf inp)] ∧
    (extract inp).raised = none := by
  cases hg : optStrFalsy inp.gisCode with
  | true =>
      rw [extract_gis_falsy inp feats vinfo0 ex hload hg]
      exact ⟨rfl, rfl, rfl, rfl⟩
  | false =>
      cases hpl : (inp.env.plotList (inp.gisCode.getD "")).isEmpty with
      | true =>
          rw [extract_plotList_empty inp feats vinfo0 ex hload hg hpl]
          exact ⟨rfl, rfl, rfl, rfl⟩
      | false =>
          by_cases hlen : ex.length = (inp.env.plotList (inp.gisCode.getD "")).length
          · rw [extract_shortCircuit inp feats vinfo0 ex hload hg hpl hlen]
            exact ⟨rfl, rfl, rfl, rfl⟩
          · rw [extract_loop inp feats vinfo0 ex hload hg hpl hlen]
            rw [processPlots_skipAll (ctxOf inp vinfo0)
              (inp.env.plotList (inp.gisCode.getD "")) 0 (st1Of inp feats ex) hcov rfl]
            exact ⟨rfl, rfl, rfl, rfl⟩

/-- Concrete fully-covered village: the file holds plot `101` and the
remote list is exactly `["101"]`. -/
def c2inp : ExtractInput :=
  { gisCode := some "G", districtName := "D", talukName := "T", villageName := "V",
    outputDir := "out", stateCode := "27",
    existingFile := some (some (.jObj [("features", .jArr [.jObj [("properties",
      .jObj [("plotno", .jStr "101")])]])])),
    env := { emptyEnv with plotList := fun _ => ["101"] },
    writeFails := fun _ => false }

/-- Witness for C2 at the concrete covered village. -/
theorem C2_witness :
    (extract c2inp).fetched = [] ∧ (extract c2inp).writes = [] ∧
    (extract c2inp).effects = [.mkdirP (talukDirOf c2inp)] ∧
    (extract c2inp).raised = none :=
  C2_resume_short_circuit c2inp (.jArr [.jObj [("properties",
      .jObj [("plotno", .jStr "101")])]]) (.jObj []) [.jStr "101"]
    (by rfl) (by decide)

/-- C5, amended: the extractor never raises provided every pre-existing
output file is absent, fails to decode with one of the caught classes
(`json.JSONDecodeError`, `IOError`), or decodes to a value whose
features load as a list with hashable plotno values — and plot-detail
responses are falsy or JSON objects.  An undecodable file is caught:
extraction starts from the empty feature set and the empty recovered
plot set (second conjunct).  A file that decodes to a JSON value of
unexpected shape, however — a non-object top level, non-loadable
features, or an unhashable plotno that makes `set.add` raise — raises
an uncaught exception (see the counterexample). -/
theorem C5_extract_no_raise (inp : ExtractInput) (fs0 : List JVal) (vinfo0 : JVal)
    (ex : List JVal)
    (hload : loadExisting inp.existingFile = .ok (.jArr fs0, vinfo0, ex))
    (hwf : EnvWF inp.env) :
    (extract inp).raised = none ∧
    loadExisting (some none) = .ok (.jArr [], .jObj [], []) := by
  refine ⟨?_, rfl⟩
  cases hg : optStrFalsy inp.gisCode with
  | true => rw [extract_gis_falsy inp (.jArr fs0) vinfo0 ex hload hg]; rfl
  | false =>
      cases hpl : (inp.env.plotList (inp.gisCode.getD "")).isEmpty with
      | true => rw [extract_plotList_empty inp (.jArr fs0) vinfo0 ex hload hg hpl]; rfl
      | false =>
          by_cases hlen : ex.length = (inp.env.plotList (inp.gisCode.getD "")).length
          · rw [extract_shortCircuit inp (.jArr fs0) vinfo0 ex hload hg hpl hlen]; rfl
          · rw [extract_loop inp (.jArr fs0) vinfo0 ex hload hg hpl hlen]
            exact (processPlots_main (ctxOf inp vinfo0) hwf
              (inp.env.plotList (inp.gisCode.getD "")) 0 (st1Of inp (.jArr fs0) ex)
              fs0 rfl rfl List.chain'_nil (by simp [st1Of])).1

/-- Concrete village whose output file decodes to a JSON array (valid
JSON, not a `VillageOutput` object). -/
def c5inp : ExtractInput :=
  { gisCode := some "G", districtName := "D", talukName := "T", villageName := "V",
    outputDir := "out", stateCode := "27", existingFile := some (some (.jArr [])),
    env := emptyEnv, writeFails := fun _ => false }

/-- Counterexample to C5 as stated: a file that is valid JSON but a
top-level array makes `data.get('features', [])` raise `AttributeError`,
which the source's `except (json.JSONDecodeError, IOError)` does not
catch, so the exception escapes `extract_and_save_village_data`. -/
theorem C5_cex : (extract c5inp).raised = some .attributeError := rfl

/-- Concrete village for the C5 witness: no prior file, empty plot
list. -/
def c5winp : ExtractInput :=
  { gisCode := some "G", districtName := "D", talukName := "T", villageName := "V",
    outputDir := "out", stateCode := "27", existingFile := none, env := emptyEnv,
    writeFails := fun _ => false }

/-- Witness for C5 (amended) at a concrete well-formed input. -/
theorem C5_witness :
    (extract c5winp).raised = none ∧
    loadExisting (some none) = .ok (.jArr [], .jObj [], []) :=
  C5_extract_no_raise c5winp [] (.jObj []) [] rfl
    (fun gis p pd h => by cases h)

theorem plotNos_mono (l1 l2 : List JVal) (h : l1 <+: l2) :
    ∀ x ∈ plotNosOfFeats l1, x ∈ plotNosOfFeats l2 := by
  obtain ⟨t, rfl⟩ := h
  intro x hx
  unfold plotNosOfFeats at *
  rw [List.filterMap_append]
  exact List.mem_append_left _ hx

/-- C3: within one village extraction from a well-formed prior state,
every successful persist writes a full `geojson_output` snapshot (a
parseable `VillageOutput`); consecutive persisted contents have feature
lists that extend one another — features are only appended, never
removed or replaced — so the persisted plot-number sets only grow, and
every persisted content extends the features loaded from the previously
persisted file. -/
theorem C3_monotonic_persistence (inp : ExtractInput) (fs0 : List JVal)
    (vinfo0 : JVal) (ex : List JVal)
    (hload : loadExisting inp.existingFile = .ok (.jArr fs0, vinfo0, ex))
    (hwf : EnvWF inp.env) :
    List.Chain' (fun a b => featListOf a <+: featListOf b ∧
        ∀ x ∈ plotNosOfFeats (featListOf a), x ∈ plotNosOfFeats (featListOf b))
      (extract inp).writes ∧
    ∀ c ∈ (extract inp).writes, fs0 <+: featListOf c ∧
      (∀ x ∈ plotNosOfFeats fs0, x ∈ plotNosOfFeats (featListOf c)) ∧
      ∃ k fsc, c = mkOutput (ctxOf inp vinfo0) (k + 1) fsc := by
  cases hg : optStrFalsy inp.gisCode with
  | true =>
      rw [extract_gis_falsy inp (.jArr fs0) vinfo0 ex hload hg]
      exact ⟨List.chain'_nil, by simp [st1Of]⟩
  | false =>
      cases hpl : (inp.env.plotList (inp.gisCode.getD "")).isEmpty with
      | true =>
          rw [extract_plotList_empty inp (.jArr fs0) vinfo0 ex hload hg hpl]
          exact ⟨List.chain'_nil, by simp [st1Of]⟩
      | false =>
          by_cases hlen : ex.length = (inp.env.plotList (inp.gisCode.getD "")).length
          · rw [extract_shortCircuit inp (.jArr fs0) vinfo0 ex hload hg hpl hlen]
            exact ⟨List.chain'_nil, by simp [st1Of]⟩
          · rw [extract_loop inp (.jArr fs0) vinfo0 ex hload hg hpl hlen]
            obtain ⟨-, nf, -, hch, -, ⟨dw, hdw, hdwc⟩, -⟩ :=
              processPlots_main (ctxOf inp vinfo0) hwf
                (inp.env.plotList (inp.gisCode.getD "")) 0 (st1Of inp (.jArr fs0) ex)
                fs0 rfl rfl List.chain'_nil (by simp [st1Of])
            refine ⟨hch.imp ?_, ?_⟩
            · intro a b hab
              exact ⟨hab, plotNos_mono _ _ hab⟩
            · intro c hcm
              have hcm' : c ∈ dw := by
                rw [hdw] at hcm
                simpa [st1Of] using hcm
              obtain ⟨⟨k, p, fsc, -, -, -, hke, -⟩, hp⟩ := hdwc c hcm'
              exact ⟨hp, plotNos_mono _ _ hp, k, fsc, hke⟩

/-- Concrete two-plot village where both plots succeed, for the C3
witness. -/
def okEnv2 : Env :=
  { villageInfo := fun _ => none, plotList := fun _ => ["1", "2"],
    plotGeometry := fun _ p => some (.jObj [("plotno", .jStr p),
      ("the_geom", .jStr "W")]),
    wktToGeojson := fun _ => some (.jObj [("type", .jStr "Polygon")]) }

theorem okEnv2_wf : EnvWF okEnv2 := by
  intro gis p pd h
  injection h with h
  exact Or.inr ⟨_, h.symm⟩

/-- Concrete input for the C3 witness. -/
def c3winp : ExtractInput :=
  { gisCode := some "G", districtName := "D", talukName := "T", villageName := "V",
    outputDir := "out", stateCode := "27", existingFile := none, env := okEnv2,
    writeFails := fun _ => false }

/-- Witness for C3 at a concrete two-plot extraction. -/
theorem C3_witness :
    List.Chain' (fun a b => featListOf a <+: featListOf b ∧
        ∀ x ∈ plotNosOfFeats (featListOf a), x ∈ plotNosOfFeats (featListOf b))
      (extract c3winp).writes ∧
    ∀ c ∈ (extract c3winp).writes, ([] : List JVal) <+: featListOf c ∧
      (∀ x ∈ plotNosOfFeats [], x ∈ plotNosOfFeats (featListOf c)) ∧
      ∃ k fsc, c = mkOutput (ctxOf c3winp (.jObj [])) (k + 1) fsc :=
  C3_monotonic_persistence c3winp [] (.jObj []) [] rfl okEnv2_wf

theorem jLookup_append (a b : List (String × JVal)) (k : String) :
    jLookup (a ++ b) k
      = match jLookup a k with
        | some x => some x
        | none => jLookup b k := by
  induction a with
  | nil => simp [jLookup]
  | cons kv rest ih =>
      obtain ⟨l, x⟩ := kv
      by_cases hl : l = k
      · simp [jLookup, hl]
      · simp [jLookup, hl, ih]

theorem jLookup_filter_key (kvs : List (String × JVal)) (P : String → Bool) (k : String) :
    jLookup (kvs.filter (fun kv => P kv.1)) k
      = if P k then jLookup kvs k else none := by
  induction kvs with
  | nil => simp [jLookup]
  | cons kv rest ih =>
      obtain ⟨l, x⟩ := kv
      by_cases hl : l = k
      · subst hl
        cases hP : P l with
        | true => simp [List.filter_cons, hP, jLookup]
        | false => simp [List.filter_cons, hP, jLookup, ih]
      · cases hP : P l with
        | true => simp [List.filter_cons, hP, jLookup, hl, ih]
        | false => simp [List.filter_cons, hP, jLookup, hl, ih]

theorem classify_success_elim (env : Env) (gis d t v p : String) (ex : List JVal)
    (f : JVal) (h : classifyPlot env gis d t v p ex = .success f) :
    ∃ kvs geometry, env.plotGeometry gis p = some (.jObj kvs) ∧
      env.wktToGeojson ((jLookup kvs "the_geom").getD .jNull) = some geometry ∧
      f = .jObj [("type", .jStr "Feature"), ("geometry", geometry),
        ("properties", .jObj (mkProperties d t v kvs))] := by
  rcases hm : setMem ex (.jStr p) with _ | _
  · rw [classify_of_not_skip env gis d t v p ex hm] at h
    cases hpg : env.plotGeometry gis p with
    | none => simp only [hpg] at h; cases h
    | some pd =>
        simp only [hpg] at h
        by_cases ht : truthy pd = true
        · simp only [ht, if_true] at h
          cases pd with
          | jObj kvs =>
              by_cases hg : truthy ((jLookup kvs "the_geom").getD .jNull) = true
              · simp only [hg, if_true] at h
                cases hw : env.wktToGeojson ((jLookup kvs "the_geom").getD .jNull) with
                | none => simp only [hw] at h; cases h
                | some g =>
                    simp only [hw] at h
                    by_cases htg : truthy g = true
                    · simp only [htg, if_true] at h
                      injection h with h
                      refine ⟨kvs, g, rfl, hw, ?_⟩
                      exact h.symm
                    · simp only [Bool.not_eq_true] at htg
                      simp only [htg, Bool.false_eq_true, if_false] at h
                      cases h
              · simp only [Bool.not_eq_true] at hg
                simp only [hg, Bool.false_eq_true, if_false] at h
                cases h
          | jNull => cases h
          | jBool b => cases h
          | jNum n => cases h
          | jStr s => cases h
          | jArr xs => cases h
        · simp only [Bool.not_eq_true] at ht
          simp only [ht, Bool.false_eq_true, if_false] at h
          cases h
  · unfold classifyPlot at h
    rw [hm] at h
    simp only [if_true] at h
    cases h

/-- C6, amended: the appended feature's properties are the context dict
merged with the raw plot attributes via `dict.update`, where the raw
attributes take precedence on every key collision — including the three
context keys `district`, `taluk` and `village`, which a raw attribute of
the same name overrides; context values survive only for keys the raw
record does not carry.  The third conjunct ties this to the pipeline:
every feature a successfully reprojected plot yields carries properties
of exactly this merged form, built from the plot's raw attribute
record. -/
theorem C6_merge_precedence (d t v : String) (kvs : List (String × JVal)) (k : String) :
    (jLookup kvs k ≠ none →
      jLookup (mkProperties d t v kvs) k = jLookup kvs k) ∧
    (jLookup kvs k = none →
      jLookup (mkProperties d t v kvs) k
        = jLookup [("district", .jStr d), ("taluk", .jStr t), ("village", .jStr v)] k) ∧
    (∀ (env : Env) (gis p : String) (f : JVal),
      plotFeatureOf env gis d t v p = some f →
      ∃ kvs2 geometry, env.plotGeometry gis p = some (.jObj kvs2) ∧
        f = .jObj [("type", .jStr "Feature"), ("geometry", geometry),
          ("properties", .jObj (mkProperties d t v kvs2))]) := by
  have hAB : (jLookup kvs k ≠ none →
      jLookup (mkProperties d t v kvs) k = jLookup kvs k) ∧
      (jLookup kvs k = none →
        jLookup (mkProperties d t v kvs) k
          = jLookup [("district", .jStr d), ("taluk", .jStr t),
              ("village", .jStr v)] k) := by
    unfold mkProperties pyDictUpdate
    rw [jLookup_append]
    by_cases hd : k = "district"
    · subst hd
      simp only [List.map_cons, List.map_nil, jLookup, if_true]
      constructor
      · intro h
        cases hx : jLookup kvs "district" with
        | none => exact absurd hx h
        | some x => simp [hx]
      · intro h
        simp [h]
    · by_cases ht : k = "taluk"
      · subst ht
        simp only [List.map_cons, List.map_nil, jLookup, hd]
        constructor
        · intro h
          cases hx : jLookup kvs "taluk" with
          | none => exact absurd hx h
          | some x => simp [hx]
        · intro h
          simp [h]
      · by_cases hv : k = "village"
        · subst hv
          simp only [List.map_cons, List.map_nil, jLookup, hd, ht]
          constructor
          · intro h
            cases hx : jLookup kvs "village" with
            | none => exact absurd hx h
            | some x => simp [hx]
          · intro h
            simp [h]
        · have h1 : "district" ≠ k := fun h => hd h.symm
          have h2 : "taluk" ≠ k := fun h => ht h.symm
          have h3 : "village" ≠ k := fun h => hv h.symm
          have hbase : jLookup [("district", JVal.jStr d), ("taluk", JVal.jStr t),
              ("village", JVal.jStr v)] k = none := by
            simp [jLookup, h1, h2, h3]
          have hmap : jLookup [("district", (jLookup kvs "district").getD (JVal.jStr d)),
              ("taluk", (jLookup kvs "taluk").getD (JVal.jStr t)),
              ("village", (jLookup kvs "village").getD (JVal.jStr v))] k = none := by
            simp [jLookup, h1, h2, h3]
          simp only [List.map_cons, List.map_nil]
          rw [hmap]
          rw [jLookup_filter_key kvs (fun s => (jLookup [("district", JVal.jStr d),
            ("taluk", JVal.jStr t), ("village", JVal.jStr v)] s).isNone) k]
          rw [hbase]
          simp
  refine ⟨hAB.1, hAB.2, ?_⟩
  intro env gis p f h
  unfold plotFeatureOf at h
  rcases hc : classifyPlot env gis d t v p [] with _ | o | f0 | e <;> rw [hc] at h
  · cases h
  · cases h
  · have hf0 : f0 = f := by simpa using h
    obtain ⟨kvs2, g, hpg, hw, hsh⟩ := classify_success_elim env gis d t v p [] f0 hc
    refine ⟨kvs2, g, hpg, ?_⟩
    rw [← hf0, hsh]
  · cases h

/-- Reader for one persisted feature: the value of property `k`. -/
def featPropOf (f : JVal) (k : String) : Option JVal :=
  match f with
  | .jObj kvs =>
      match jLookup kvs "properties" with
      | some (.jObj ps) => jLookup ps k
      | _ => none
  | _ => none

/-- Remote service answering one plot whose raw attributes carry a
`district` key colliding with the extractor-supplied context key. -/
def c6env : Env :=
  { villageInfo := fun _ => none, plotList := fun _ => ["1"],
    plotGeometry := fun _ _ => some (.jObj [("district", .jStr "RAW"),
      ("the_geom", .jStr "W")]),
    wktToGeojson := fun _ => some (.jObj [("type", .jStr "Polygon")]) }

/-- Concrete village for the C6 counterexample. -/
def c6inp : ExtractInput :=
  { gisCode := some "G", districtName := "CTX", talukName := "T", villageName := "V",
    outputDir := "out", stateCode := "27", existingFile := none, env := c6env,
    writeFails := fun _ => false }

/-- Counterexample to C6 as stated: the persisted feature's `district`
property is the raw attribute value `RAW`, not the extractor-supplied
district name `CTX` — `properties.update(plot_data)` lets a raw
attribute named `district` override the context key. -/
theorem C6_cex :
    (extract c6inp).writes.map (fun c => (featListOf c).map
        (fun f => featPropOf f "district")) = [[some (.jStr "RAW")]] ∧
    c6inp.districtName = "CTX" ∧ ("RAW" : String) ≠ "CTX" :=
  ⟨rfl, rfl, by decide⟩

/-- Witness for C6 (amended) at concrete inputs: a raw `district`
attribute wins the collision, and a key absent from the raw record keeps
the context value. -/
theorem C6_witness :
    jLookup (mkProperties "CTX" "T" "V" [("district", .jStr "RAW")]) "district"
      = jLookup [("district", .jStr "RAW")] "district" ∧
    jLookup (mkProperties "CTX" "T" "V" [("district", .jStr "RAW")]) "taluk"
      = jLookup [("district", .jStr "CTX"), ("taluk", .jStr "T"),
          ("village", .jStr "V")] "taluk" := by
  constructor
  · exact (C6_merge_precedence "CTX" "T" "V" [("district", .jStr "RAW")]
      "district").1 (by simp [jLookup])
  · exact (C6_merge_precedence "CTX" "T" "V" [("district", .jStr "RAW")]
      "taluk").2.1 (by simp [jLookup])

/-- Remote service and file for the C8 counterexample: the file already
holds plot `b`, the list is `["a", "b"]`, and plot `a` succeeds — so the
first dump happens at list position 1 with two features in memory. -/
def c8env : Env :=
  { villageInfo := fun _ => none, plotList := fun _ => ["a", "b"],
    plotGeometry := fun _ p => if p = "a" then some (.jObj [("plotno", .jStr "a"),
      ("the_geom", .jStr "W")]) else none,
    wktToGeojson := fun _ => some (.jObj [("type", .jStr "Polygon")]) }

/-- Concrete village for the C8 counterexample. -/
def c8inp : ExtractInput :=
  { gisCode := some "G", districtName := "D", talukName := "T", villageName := "V",
    outputDir := "out", stateCode := "27",
    existingFile := some (some (.jObj [("features", .jArr [.jObj [("properties",
      .jObj [("plotno", .jStr "b")])]])])),
    env := c8env, writeFails := fun _ => false }

/-- Counterexample to C8 as stated: with the existing file holding plot
`b` and the list `["a", "b"]`, the persist for plot `a` writes
`failed_plots = (0 + 1) - 2 = -1` — a negative value, differing from
"attempts so far minus successes" (which is 0 here). -/
theorem C8_cex :
    (extract c8inp).writes.map (fun c => (metaOf c "successful_plots",
        metaOf c "failed_plots"))
      = [(some (.jNum 2), some (.jNum (-1)))] ∧
    (-1 : Int) < 0 := ⟨rfl, by decide⟩

/-- Remote service and file for the C8 scenario: list
`["101", "102"]`, file holding `101`, plot `102` succeeds. -/
def c8wenv : Env :=
  { villageInfo := fun _ => none, plotList := fun _ => ["101", "102"],
    plotGeometry := fun _ p => if p = "102" then some (.jObj [("plotno",
      .jStr "102"), ("the_geom", .jStr "W")]) else none,
    wktToGeojson := fun _ => some (.jObj [("type", .jStr "Polygon")]) }

/-- Concrete village for the C8 scenario conjunct and witness. -/
def c8winp : ExtractInput :=
  { gisCode := some "G", districtName := "D", talukName := "T", villageName := "V",
    outputDir := "out", stateCode := "27",
    existingFile := some (some (.jObj [("features", .jArr [.jObj [("properties",
      .jObj [("plotno", .jStr "101")])]])])),
    env := c8wenv, writeFails := fun _ => false }

/-- C8, amended: every successfully persisted content is a
`geojson_output` snapshot written while persisting the plot at some
0-based position `k` of the full plot list — witnessed by the snapshot's
newest feature being exactly that plot's feature — whose
`successful_plots` equals its own feature count and whose `failed_plots`
equals the 1-based list position `k + 1` of that plot being persisted
minus the feature count: an integer that can be negative when the prior
file held features for plots not yet reached.  In the spec's scenario
(list `["101","102"]`, file holding `101`) the final metadata is
`successful_plots = 2`, `failed_plots = 0`. -/
theorem C8_metadata_counters (inp : ExtractInput) (fs0 : List JVal) (vinfo0 : JVal)
    (ex : List JVal)
    (hload : loadExisting inp.existingFile = .ok (.jArr fs0, vinfo0, ex))
    (hwf : EnvWF inp.env) :
    (∀ c ∈ (extract inp).writes, ∃ k p fsc,
      k < (inp.env.plotList (inp.gisCode.getD "")).length ∧
      (inp.env.plotList (inp.gisCode.getD ""))[k]? = some p ∧
      featListOf c = fsc ∧
      fsc.getLast? = plotFeatureOf inp.env (inp.gisCode.getD "") inp.districtName
        inp.talukName inp.villageName p ∧
      metaOf c "successful_plots" = some (.jNum (fsc.length : Int)) ∧
      metaOf c "failed_plots"
        = some (.jNum (((k + 1 : Nat) : Int) - (fsc.length : Int)))) ∧
    (extract c8winp).writes.map (fun c => (metaOf c "successful_plots",
        metaOf c "failed_plots"))
      = [(some (.jNum 2), some (.jNum 0))] := by
  refine ⟨?_, rfl⟩
  cases hg : optStrFalsy inp.gisCode with
  | true =>
      rw [extract_gis_falsy inp (.jArr fs0) vinfo0 ex hload hg]
      simp [st1Of]
  | false =>
      cases hpl : (inp.env.plotList (inp.gisCode.getD "")).isEmpty with
      | true =>
          rw [extract_plotList_empty inp (.jArr fs0) vinfo0 ex hload hg hpl]
          simp [st1Of]
      | false =>
          by_cases hlen : ex.length = (inp.env.plotList (inp.gisCode.getD "")).length
          · rw [extract_shortCircuit inp (.jArr fs0) vinfo0 ex hload hg hpl hlen]
            simp [st1Of]
          · rw [extract_loop inp (.jArr fs0) vinfo0 ex hload hg hpl hlen]
            obtain ⟨-, nf, -, -, -, ⟨dw, hdw, hdwc⟩, -⟩ :=
              processPlots_main (ctxOf inp vinfo0) hwf
                (inp.env.plotList (inp.gisCode.getD "")) 0 (st1Of inp (.jArr fs0) ex)
                fs0 rfl rfl List.chain'_nil (by simp [st1Of])
            intro c hcm
            have hcm' : c ∈ dw := by
              rw [hdw] at hcm
              simpa [st1Of] using hcm
            obtain ⟨⟨k, p, fsc, -, hk2, hkg, hke, hkl⟩, -⟩ := hdwc c hcm'
            refine ⟨k, p, fsc, by simpa using hk2, by simpa using hkg, ?_, hkl,
              ?_, ?_⟩
            · rw [hke, featListOf_mkOutput]
            · rw [hke, metaOf_mkOutput_successful]
            · rw [hke, metaOf_mkOutput_failed]

theorem c8wenv_wf : EnvWF c8wenv := by
  intro gis p pd h
  simp only [c8wenv] at h
  by_cases hp : p = "102"
  · rw [if_pos hp] at h
    injection h with h
    exact Or.inr ⟨_, h.symm⟩
  · rw [if_neg hp] at h
    cases h

/-- Witness for C8 (amended): the scenario instance, through the
theorem, with the hypotheses discharged at the concrete village. -/
theorem C8_witness :
    (extract c8winp).writes.map (fun c => (metaOf c "successful_plots",
        metaOf c "failed_plots"))
      = [(some (.jNum 2), some (.jNum 0))] :=
  (C8_metadata_counters c8winp [.jObj [("properties", .jObj [("plotno",
      .jStr "101")])]] (.jObj []) [.jStr "101"] rfl c8wenv_wf).2

theorem mem_unique_of_nodup_keys (outs : List (String × POutcome))
    (hnd : (outs.map Prod.fst).Nodup) (p : String) (a b : POutcome)
    (ha : (p, a) ∈ outs) (hb : (p, b) ∈ outs) : a = b := by
  induction outs with
  | nil => cases ha
  | cons qo rest ih =>
      simp only [List.map_cons, List.nodup_cons] at hnd
      obtain ⟨hq, hnd'⟩ := hnd
      rcases List.mem_cons.mp ha with ha' | ha
      · rcases List.mem_cons.mp hb with hb' | hb
        · rw [← ha'] at hb'
          injection hb' with h1 h2
          exact h2.symm
        · exfalso
          apply hq
          have h0 : (p, b).1 ∈ rest.map Prod.fst := List.mem_map_of_mem Prod.fst hb
          rw [← ha']
          simpa using h0
      · rcases List.mem_cons.mp hb with hb' | hb
        · exfalso
          apply hq
          have h0 : (p, a).1 ∈ rest.map Prod.fst := List.mem_map_of_mem Prod.fst ha
          rw [← hb']
          simpa using h0
        · exact ih hnd' ha hb

/-- C4, amended: provided the fetched plot list is duplicate-free (each
plot number appears at most once in the list), for every plot whose
file write fails, the plot number is not added to
`existing_plot_nos` (it is added only after a successful persist) and
stays absent from it for the whole run.  The plot's feature, however,
was already appended to the in-memory list, so any later successful
persist of the same run writes it to disk — the plot is therefore not
necessarily re-fetched on the next run (it is re-fetched only when no
later persist succeeded or its raw attributes carry no `plotno`).  The
duplicate-free condition matters: with a list repeating a plot number,
a later occurrence of the same number is fetched again and can be
persisted and added. -/
theorem C4_persist_failure_not_recorded (inp : ExtractInput) (fs0 : List JVal)
    (vinfo0 : JVal) (ex : List JVal)
    (hload : loadExisting inp.existingFile = .ok (.jArr fs0, vinfo0, ex))
    (hwf : EnvWF inp.env)
    (hndL : (inp.env.plotList (inp.gisCode.getD "")).Nodup) :
    ∀ p, (p, POutcome.persistFailed) ∈ (extract inp).outcomes →
      setMem (extract inp).existing (.jStr p) = false := by
  intro p hp
  cases hg : optStrFalsy inp.gisCode with
  | true =>
      rw [extract_gis_falsy inp (.jArr fs0) vinfo0 ex hload hg] at hp
      cases hp
  | false =>
      cases hpl : (inp.env.plotList (inp.gisCode.getD "")).isEmpty with
      | true =>
          rw [extract_plotList_empty inp (.jArr fs0) vinfo0 ex hload hg hpl] at hp
          cases hp
      | false =>
          by_cases hlen : ex.length = (inp.env.plotList (inp.gisCode.getD "")).length
          · rw [extract_shortCircuit inp (.jArr fs0) vinfo0 ex hload hg hpl hlen] at hp
            cases hp
          · rw [extract_loop inp (.jArr fs0) vinfo0 ex hload hg hpl hlen] at hp ⊢
            obtain ⟨-, -, outs, h3, h4, h5, h6⟩ :=
              processPlots_fetch (ctxOf inp vinfo0) hwf
                (inp.env.plotList (inp.gisCode.getD "")) 0 (st1Of inp (.jArr fs0) ex)
                fs0 (fun q => setMem ex (.jStr q)) rfl rfl hndL (fun q hq => rfl)
            have hpouts : (p, POutcome.persistFailed) ∈ outs := by
              rw [h3] at hp
              simpa [st1Of] using hp
            have hexp : setMem ex (.jStr p) = false := by
              have := h5 (p, POutcome.persistFailed) hpouts (by intro hx; cases hx)
              simpa [st1Of] using this
            rw [h6]
            rw [show (st1Of inp (.jArr fs0) ex).existing = ex from rfl]
            rw [setMem_append]
            rw [hexp]
            simp only [Bool.false_or]
            by_contra hx
            rw [Bool.not_eq_false] at hx
            unfold setMem at hx
            rw [List.any_eq_true] at hx
            obtain ⟨x, hxm, hxe⟩ := hx
            rw [List.mem_filterMap] at hxm
            obtain ⟨qo, hqo, hqe⟩ := hxm
            by_cases hper : qo.2 = POutcome.persisted
            · rw [if_pos hper] at hqe
              injection hqe with hqe
              rw [← hqe] at hxe
              rw [jvalBeq_jStr] at hxe
              have hpq : p = qo.1 := by
                rwa [beq_iff_eq] at hxe
              have hqmem : (p, POutcome.persisted) ∈ outs := by
                have : qo = (p, POutcome.persisted) := by
                  obtain ⟨q1, q2⟩ := qo
                  simp only at hper hpq
                  rw [hpq, hper]
                rwa [this] at hqo
              have : POutcome.persistFailed = POutcome.persisted :=
                mem_unique_of_nodup_keys outs (by rw [h4]; exact hndL) p _ _
                  hpouts hqmem
              cases this
            · rw [if_neg hper] at hqe
              cases hqe

/-- Remote service for the C4 scenario: two plots, both yielding
geometry, whose raw attributes carry their plot numbers. -/
def c4env : Env :=
  { villageInfo := fun _ => none, plotList := fun _ => ["p", "q"],
    plotGeometry := fun _ p => some (.jObj [("plotno", .jStr p),
      ("the_geom", .jStr "W")]),
    wktToGeojson := fun _ => some (.jObj [("type", .jStr "Polygon")]) }

theorem c4env_wf : EnvWF c4env := by
  intro gis p pd h
  injection h with h
  exact Or.inr ⟨_, h.symm⟩

/-- First run: no prior file; the dump for plot `p` fails, the dump for
plot `q` succeeds. -/
def c4run1 : ExtractInput :=
  { gisCode := some "G", districtName := "D", talukName := "T", villageName := "V",
    outputDir := "out", stateCode := "27", existingFile := none, env := c4env,
    writeFails := fun k => k == 0 }

/-- What run 1 leaves on disk: the content of its last successful dump. -/
def c4file : JVal := ((extract c4run1).writes.getLast?).getD .jNull

/-- Second run against the file run 1 left behind, with no write
failures. -/
def c4run2 : ExtractInput :=
  { c4run1 with existingFile := some (some c4file), writeFails := fun _ => false }

/-- Counterexample to C4 as stated: in run 1 the write for plot `p`
fails, yet the later successful write (for plot `q`) persists `p`'s
already-appended feature, so the second run recovers `p` from the file
and fetches nothing — `p` is not re-fetched on the next run. -/
theorem C4_cex :
    ("p", POutcome.persistFailed) ∈ (extract c4run1).outcomes ∧
    (extract c4run2).fetched = [] := by
  constructor
  · rw [show (extract c4run1).outcomes
      = [("p", POutcome.persistFailed), ("q", POutcome.persisted)] from rfl]
    exact List.mem_cons_self _ _
  · rfl

/-- Witness for C4 (amended) at run 1: the write-failed plot `p` is
absent from the final `existing_plot_nos`. -/
theorem C4_witness :
    setMem (extract c4run1).existing (.jStr "p") = false :=
  C4_persist_failure_not_recorded c4run1 [] (.jObj []) [] rfl c4env_wf
    (by decide) "p"
    (by rw [show (extract c4run1).outcomes
          = [("p", POutcome.persistFailed), ("q", POutcome.persisted)] from rfl]
        exact List.mem_cons_self _ _)

theorem subset_full_of_length_eq (E L : List String) (hndE : E.Nodup)
    (hsub : ∀ q ∈ E, q ∈ L) (hlen : E.length = L.length) : ∀ q ∈ L, q ∈ E := by
  have hsp : List.Subperm E L := List.subperm_of_subset hndE (fun x hx => hsub x hx)
  have hperm : List.Perm E L := hsp.perm_of_length_le (le_of_eq hlen.symm)
  intro q hq
  exact hperm.mem_iff.mpr hq

/-- C1, amended: provided the plot numbers recovered from the output
file are the string values of a duplicate-free subset `E` of the
duplicate-free fetched plot list `L`, the extractor fetches plot detail
exactly for the plot numbers of `L` not in `E`, in `L`'s order, and
plots in `E` are never fetched; when moreover every dump succeeds, the
last persisted content holds the loaded features followed by one
feature per fresh plot that yielded geometry, in order — covering every
plot of `L` that yielded geometry.  (The subset condition is necessary:
the resume short-circuit compares only cardinalities, see the
counterexample.) -/
theorem C1_resumability (inp : ExtractInput) (fs0 : List JVal) (vinfo0 : JVal)
    (E : List String)
    (hload : loadExisting inp.existingFile = .ok (.jArr fs0, vinfo0, E.map JVal.jStr))
    (hwf : EnvWF inp.env)
    (hgis : optStrFalsy inp.gisCode = false)
    (hndE : E.Nodup)
    (hndL : (inp.env.plotList (inp.gisCode.getD "")).Nodup)
    (hsub : ∀ q ∈ E, q ∈ inp.env.plotList (inp.gisCode.getD "")) :
    (extract inp).fetched
      = (inp.env.plotList (inp.gisCode.getD "")).filter (fun q => !E.contains q) ∧
    (∀ q ∈ E, q ∉ (extract inp).fetched) ∧
    ((∀ k, inp.writeFails k = false) →
      ∀ c, (extract inp).writes.getLast? = some c →
        featListOf c = fs0 ++ ((inp.env.plotList (inp.gisCode.getD "")).filter
          (fun q => !E.contains q)).filterMap (plotFeatureOf inp.env
            (inp.gisCode.getD "") inp.districtName inp.talukName inp.villageName)) ∧
    ((∀ k, inp.writeFails k = false) →
      ∀ p, p ∈ inp.env.plotList (inp.gisCode.getD "") → E.contains p = false →
        ∀ f, plotFeatureOf inp.env (inp.gisCode.getD "") inp.districtName
            inp.talukName inp.villageName p = some f →
          ∃ c, (extract inp).writes.getLast? = some c ∧ f ∈ featListOf c) := by
  cases hpl : (inp.env.plotList (inp.gisCode.getD "")).isEmpty with
  | true =>
      have hLnil : inp.env.plotList (inp.gisCode.getD "") = [] :=
        List.isEmpty_iff.mp hpl
      rw [extract_plotList_empty inp (.jArr fs0) vinfo0 (E.map JVal.jStr) hload
        hgis hpl]
      refine ⟨by rw [hLnil]; rfl, ?_, ?_, ?_⟩
      · intro q hq hmem
        cases hmem
      · intro hok c hc
        cases hc
      · intro hok p hp
        rw [hLnil] at hp
        cases hp
  | false =>
      by_cases hlen : (E.map JVal.jStr).length
          = (inp.env.plotList (inp.gisCode.getD "")).length
      · -- cardinality short circuit: E must be all of L
        have hfull : ∀ q ∈ inp.env.plotList (inp.gisCode.getD ""), q ∈ E :=
          subset_full_of_length_eq E (inp.env.plotList (inp.gisCode.getD "")) hndE
            hsub (by simpa using hlen)
        have hfil : (inp.env.plotList (inp.gisCode.getD "")).filter
            (fun q => !E.contains q) = [] := by
          rw [List.filter_eq_nil_iff]
          intro q hq
          have hcon : E.contains q = true := List.elem_eq_true_of_mem (hfull q hq)
          show ¬(!E.contains q) = true
          rw [hcon]
          simp
        rw [extract_shortCircuit inp (.jArr fs0) vinfo0 (E.map JVal.jStr) hload
          hgis hpl hlen]
        refine ⟨by rw [hfil]; rfl, ?_, ?_, ?_⟩
        · intro q hq hmem
          cases hmem
        · intro hok c hc
          cases hc
        · intro hok p hp hpe f hf
          have hcon : E.contains p = true := List.elem_eq_true_of_mem (hfull p hp)
          rw [hpe] at hcon
          cases hcon
      · -- the per-plot loop runs
        rw [extract_loop inp (.jArr fs0) vinfo0 (E.map JVal.jStr) hload hgis hpl hlen]
        have hag : ∀ q ∈ inp.env.plotList (inp.gisCode.getD ""),
            setMem (st1Of inp (.jArr fs0) (E.map JVal.jStr)).existing (.jStr q)
              = E.contains q := by
          intro q hq
          exact setMem_map_jStr E q
        obtain ⟨h1, h2, -⟩ :=
          processPlots_fetch (ctxOf inp vinfo0) hwf
            (inp.env.plotList (inp.gisCode.getD "")) 0
            (st1Of inp (.jArr fs0) (E.map JVal.jStr)) fs0 (fun q => E.contains q)
            rfl rfl hndL hag
        have hfe : (processPlots (ctxOf inp vinfo0) 0
            (inp.env.plotList (inp.gisCode.getD ""))
            (st1Of inp (.jArr fs0) (E.map JVal.jStr))).fetched
              = (inp.env.plotList (inp.gisCode.getD "")).filter
                  (fun q => !E.contains q) := by
          rw [h1]
          rfl
        refine ⟨hfe, ?_, ?_, ?_⟩
        · intro q hq hmem
          rw [hfe] at hmem
          have hcon : E.contains q = true := List.elem_eq_true_of_mem hq
          have hthis := (List.mem_filter.mp hmem).2
          simp only [hcon, Bool.not_true] at hthis
          cases hthis
        · intro hok c hc
          have := processPlots_lastWrite (ctxOf inp vinfo0) hwf hok
            (inp.env.plotList (inp.gisCode.getD "")) 0
            (st1Of inp (.jArr fs0) (E.map JVal.jStr)) fs0 (fun q => E.contains q)
            rfl rfl hndL hag (fun c2 hc2 => by cases hc2) c hc
          exact this
        · intro hok p hp hpe f hf
          have hfil : p ∈ (inp.env.plotList (inp.gisCode.getD "")).filter
              (fun q => !E.contains q) :=
            List.mem_filter.mpr ⟨hp, by rw [hpe]; rfl⟩
          have hfm : f ∈ ((inp.env.plotList (inp.gisCode.getD "")).filter
              (fun q => !E.contains q)).filterMap (plotFeatureOf inp.env
                (inp.gisCode.getD "") inp.districtName inp.talukName
                inp.villageName) :=
            List.mem_filterMap.mpr ⟨p, hfil, hf⟩
          have hne : ((inp.env.plotList (inp.gisCode.getD "")).filter
              (fun q => !E.contains q)).filterMap (plotFeatureOf inp.env
                (inp.gisCode.getD "") inp.districtName inp.talukName
                inp.villageName) ≠ [] := by
            intro hx
            rw [hx] at hfm
            cases hfm
          have hwne := processPlots_writes_ne_nil (ctxOf inp vinfo0) hwf hok
            (inp.env.plotList (inp.gisCode.getD "")) 0
            (st1Of inp (.jArr fs0) (E.map JVal.jStr)) fs0 (fun q => E.contains q)
            rfl rfl hndL hag hne
          cases hlw : (processPlots (ctxOf inp vinfo0) 0
              (inp.env.plotList (inp.gisCode.getD ""))
              (st1Of inp (.jArr fs0) (E.map JVal.jStr))).writes.getLast? with
          | none => exact absurd (List.getLast?_eq_none_iff.mp hlw) hwne
          | some c =>
              have hfeat := processPlots_lastWrite (ctxOf inp vinfo0) hwf hok
                (inp.env.plotList (inp.gisCode.getD "")) 0
                (st1Of inp (.jArr fs0) (E.map JVal.jStr)) fs0
                (fun q => E.contains q) rfl rfl hndL hag
                (fun c2 hc2 => by cases hc2) c hlw
              refine ⟨c, rfl, ?_⟩
              rw [hfeat]
              exact List.mem_append_right fs0 hfm

/-- Remote service for the C1 counterexample: single plot `y`. -/
def c1env : Env := { emptyEnv with plotList := fun _ => ["y"] }

/-- Concrete village whose file holds plot `x` while the remote list is
`["y"]`: same cardinality, disjoint contents. -/
def c1inp : ExtractInput :=
  { gisCode := some "G", districtName := "D", talukName := "T", villageName := "V",
    outputDir := "out", stateCode := "27",
    existingFile := some (some (.jObj [("features", .jArr [.jObj [("properties",
      .jObj [("plotno", .jStr "x")])]])])),
    env := c1env, writeFails := fun _ => false }

/-- Counterexample to C1 as stated: the file recovers `E = {x}`, the
plot list is `L = ["y"]`, so the claim demands that `y` be fetched; but
`len(existing_plot_nos) == total_plots` (1 = 1) triggers the resume
short-circuit and nothing is fetched. -/
theorem C1_cex :
    loadExisting c1inp.existingFile
      = .ok (.jArr [.jObj [("properties", .jObj [("plotno", .jStr "x")])]],
          .jObj [], [.jStr "x"]) ∧
    c1inp.env.plotList "G" = ["y"] ∧
    (extract c1inp).fetched = [] ∧
    (["y"].filter (fun q => !setMem [.jStr "x"] (.jStr q))) = ["y"] ∧
    ([] : List String) ≠ ["y"] := ⟨rfl, rfl, rfl, rfl, by decide⟩

/-- Witness for C1 (amended) at the scenario village (file holding
`101`, list `["101", "102"]`): exactly `102` is fetched and `101` is
not re-fetched. -/
theorem C1_witness :
    (extract c8winp).fetched
      = (c8winp.env.plotList (c8winp.gisCode.getD "")).filter
          (fun q => !(["101"].contains q)) ∧
    "101" ∉ (extract c8winp).fetched := by
  have h := C1_resumability c8winp [.jObj [("properties", .jObj [("plotno",
      .jStr "101")])]] (.jObj []) ["101"] rfl c8wenv_wf rfl (by decide) (by decide)
    (by decide)
  exact ⟨h.1, h.2.1 "101" (List.mem_singleton.mpr rfl)⟩

end MhPoly
